import Mathlib

/-!
# filtermatcher: attribute matcher

A shallow embedding of `filtermatcher/attributematcher.go`
(`NewAttributesMatcher`, `AttributesMatcher.Match`, `attributeStringValue`)
together with the properties of the compiled attribute predicate.

The packages the file imports (`pdata`, `filterset`, `filterconfig`,
`filterhelper`, `strconv`, `errors`, `fmt`) are not part of the repository.
Their data types are modelled from the specification and their functions with
configuration-dependent behaviour are taken as parameters.
-/

/-! ## Go errors -/

/-- Modelled from the spec: a Go `error` value, missing from the sources
because `errors` and `fmt` are standard library. `New text` is
`errors.New(text)`. `Errorf format key found` is the value built by the one
`fmt.Errorf` call of the file, kept unrendered: its format string and the two
arguments that vary between calls (the attribute key and the name of the value
type that was found). -/
inductive Error where
  | New (text : String)
  | Errorf (format : String) (key : String) (found : String)
deriving DecidableEq, Repr

/-! ## pdata: attribute values and attribute maps -/

namespace pdata

/-- Modelled from the spec: the payload of a Double value, a 64-bit float,
kept as its bit pattern. No floating-point arithmetic is performed by the
matcher. -/
structure Float64 where
  bits : Nat
deriving DecidableEq, Repr

/-- Modelled from the spec: the variant tags of the Value domain (`String`,
`Bool`, `Int`, `Double`, `Bytes`, `Array`, `Map`) and the tag of a value that
carries no payload. -/
inductive AttributeValueType where
  | AttributeValueTypeEmpty
  | AttributeValueTypeString
  | AttributeValueTypeBool
  | AttributeValueTypeInt
  | AttributeValueTypeDouble
  | AttributeValueTypeBytes
  | AttributeValueTypeArray
  | AttributeValueTypeMap
deriving DecidableEq, Repr

/-- Modelled from the spec: the name of a variant tag, as `%s` prints it. The
names follow the `STRING` of the error format of `NewAttributesMatcher`; no
property below depends on their spelling. -/
def AttributeValueType.String : AttributeValueType → String
  | AttributeValueTypeEmpty => "EMPTY"
  | AttributeValueTypeString => "STRING"
  | AttributeValueTypeBool => "BOOL"
  | AttributeValueTypeInt => "INT"
  | AttributeValueTypeDouble => "DOUBLE"
  | AttributeValueTypeBytes => "BYTES"
  | AttributeValueTypeArray => "ARRAY"
  | AttributeValueTypeMap => "MAP"

/-- Modelled from the spec: `Value`, the tagged union over the telemetry
attribute value domain (String, Bool, Int, Double, Bytes, Array, Map), plus the
value without payload. `pdata.AttributeValue` is missing from the sources. -/
inductive AttributeValue where
  | empty
  | ofString (s : String)
  | ofBool (b : Bool)
  | ofInt (n : Int)
  | ofDouble (d : Float64)
  | ofBytes (b : List Nat)
  | ofArray (a : List AttributeValue)
  | ofMap (m : List (String × AttributeValue))

/-- The variant tag of a value: `attr.Type()`. -/
def AttributeValue.Type : AttributeValue → AttributeValueType
  | .empty => .AttributeValueTypeEmpty
  | .ofString _ => .AttributeValueTypeString
  | .ofBool _ => .AttributeValueTypeBool
  | .ofInt _ => .AttributeValueTypeInt
  | .ofDouble _ => .AttributeValueTypeDouble
  | .ofBytes _ => .AttributeValueTypeBytes
  | .ofArray _ => .AttributeValueTypeArray
  | .ofMap _ => .AttributeValueTypeMap

/-- The string payload: `attr.StringVal()`, the empty string for other variants. -/
def AttributeValue.StringVal : AttributeValue → String
  | .ofString s => s
  | _ => ""

/-- The boolean payload: `attr.BoolVal()`, false for other variants. -/
def AttributeValue.BoolVal : AttributeValue → Bool
  | .ofBool b => b
  | _ => false

/-- The integer payload: `attr.IntVal()`, zero for other variants. -/
def AttributeValue.IntVal : AttributeValue → Int
  | .ofInt n => n
  | _ => 0

/-- The float payload: `attr.DoubleVal()`, zero for other variants. -/
def AttributeValue.DoubleVal : AttributeValue → Float64
  | .ofDouble d => d
  | _ => ⟨0⟩

mutual
/-- Modelled from the spec: `attr.Equal(other)`, structural equality, same
variant tag and equal payload. -/
def AttributeValue.Equal : AttributeValue → AttributeValue → Bool
  | .empty, .empty => true
  | .ofString a, .ofString b => decide (a = b)
  | .ofBool a, .ofBool b => decide (a = b)
  | .ofInt a, .ofInt b => decide (a = b)
  | .ofDouble a, .ofDouble b => decide (a = b)
  | .ofBytes a, .ofBytes b => decide (a = b)
  | .ofArray a, .ofArray b => AttributeValue.equalItems a b
  | .ofMap a, .ofMap b => AttributeValue.equalEntries a b
  | _, _ => false
/-- Equality of two Array payloads, item by item. -/
def AttributeValue.equalItems : List AttributeValue → List AttributeValue → Bool
  | [], [] => true
  | x :: xs, y :: ys => AttributeValue.Equal x y && AttributeValue.equalItems xs ys
  | _, _ => false
/-- Equality of two Map payloads, entry by entry. -/
def AttributeValue.equalEntries :
    List (String × AttributeValue) → List (String × AttributeValue) → Bool
  | [], [] => true
  | (k, x) :: xs, (l, y) :: ys =>
    decide (k = l) && AttributeValue.Equal x y && AttributeValue.equalEntries xs ys
  | _, _ => false
end

/-- Modelled from the spec: the attribute map of a record, consumed through
`get(key) -> (Value, present)` and `size()`. It is kept as its list of entries. -/
structure AttributeMap where
  orig : List (String × AttributeValue)

/-- Lookup in a list of entries: the first entry stored under the key. -/
def lookup : List (String × AttributeValue) → String → Option AttributeValue
  | [], _ => none
  | (k, v) :: rest, key => if k = key then some v else lookup rest key

/-- The value stored under `key`, if present: `attrs.Get(key)`. The Go pair
`(value, exist)` is `some value` when `exist` holds and `none` otherwise. -/
def AttributeMap.Get (am : AttributeMap) (key : String) : Option AttributeValue :=
  lookup am.orig key

/-- The number of entries: `attrs.Len()`. -/
def AttributeMap.Len (am : AttributeMap) : Nat :=
  am.orig.length

end pdata

/-! ## filterset and filterconfig -/

namespace filterset

/-- Modelled from the spec: the match-type enumeration of the match
configuration, with the two values the matcher distinguishes and the values
only the pattern engine knows. -/
inductive MatchType where
  | Regexp
  | Strict
  | Other (name : String)
deriving DecidableEq, Repr

/-- Modelled from the spec: the match configuration. It carries the match type
and the options of the pattern engine, which this package passes through. -/
structure Config where
  MatchType : MatchType
  EngineOptions : List (String × String)
deriving DecidableEq, Repr

/-- Modelled from the spec: `CompiledFilterSet`, a pre-compiled pattern matcher
exposing the single operation `matches(string) -> bool`. -/
structure FilterSet where
  Matches : String → Bool

end filterset

namespace filterconfig

/-- Modelled from the spec: one criteria spec `(key, rawValue)`, with the raw
value optional (`attribute.Value != nil`). `Raw` is the type of the loosely
typed configuration values. -/
structure Attribute (Raw : Type) where
  Key : String
  Value : Option Raw

end filterconfig

/-! ## strconv -/

namespace strconv

/-- Modelled from the spec: `strconv.FormatBool`, `"true"` or `"false"`. -/
def FormatBool (b : Bool) : String :=
  if b then "true" else "false"

/-- The character of a decimal digit. -/
def digitChar (d : Nat) : Char :=
  Char.ofNat (48 + d)

/-- The decimal digits of `u`, most significant first, in front of `acc`; the
first argument bounds the number of digits produced. -/
def formatBits : Nat → Nat → List Char → List Char
  | 0, _, acc => acc
  | fuel + 1, u, acc =>
    if u < 10 then digitChar u :: acc
    else formatBits fuel (u / 10) (digitChar (u % 10) :: acc)

/-- Modelled from the spec: `strconv.FormatInt(i, 10)`, the canonical base-10
decimal string of `i`. -/
def FormatInt (i : Int) : String :=
  if i < 0 then String.mk ('-' :: formatBits (i.natAbs + 1) i.natAbs [])
  else String.mk (formatBits (i.natAbs + 1) i.natAbs [])

end strconv

/-! ## filtermatcher -/

namespace filtermatcher

open pdata

/-- AttributeMatcher is a attribute key/value pair to match to. If both
`AttributeValue` and `StringFilter` are nil only check for key existence. -/
structure AttributeMatcher where
  Key : String
  AttributeValue : Option pdata.AttributeValue
  StringFilter : Option filterset.FilterSet

/-- The compiled matcher: `type AttributesMatcher []AttributeMatcher`. -/
abbrev AttributesMatcher := List AttributeMatcher

/-- The package variable `errUnexpectedAttributeType`. -/
def errUnexpectedAttributeType : Error :=
  Error.New "unexpected attribute type"

/-- The collaborators of the compiler: the value normalizer
`filterhelper.NewAttributeValueRaw` and the pattern filter compiler
`filterset.CreateFilterSet`, both missing from the sources and taken as
parameters. -/
structure Collaborators (Raw : Type) where
  NewAttributeValueRaw : Raw → Except Error pdata.AttributeValue
  CreateFilterSet : List String → filterset.Config → Except Error filterset.FilterSet

/-- One invocation of a collaborator by `NewAttributesMatcher`, with the index
of the spec being processed and the arguments passed. -/
inductive Call (Raw : Type) where
  | NewAttributeValueRaw (index : Nat) (value : Raw)
  | CreateFilterSet (index : Nat) (patterns : List String) (config : filterset.Config)

/-- The body of the `for _, attribute := range attributes` loop of
`NewAttributesMatcher`; the loop variable is named `spec` here. `index` is the
position of the head of the remaining
specs, `rawAttributes` the entries appended so far, `calls` the collaborator
invocations made so far. The result is the Go pair `(matcher, error)` and the
invocations made. -/
def NewAttributesMatcher.loop {Raw : Type} (ext : Collaborators Raw) (config : filterset.Config) :
    List (filterconfig.Attribute Raw) → Nat → AttributesMatcher → List (Call Raw) →
      (AttributesMatcher × Option Error) × List (Call Raw)
  | [], _, rawAttributes, calls => ((rawAttributes, none), calls)
  | spec :: rest, index, rawAttributes, calls =>
    if spec.Key = "" then
      (([], some (Error.New "can't have empty key in the list of attributes")), calls)
    else
      match spec.Value with
      | none =>
        NewAttributesMatcher.loop ext config rest (index + 1)
          (rawAttributes ++ [⟨spec.Key, none, none⟩]) calls
      | some value =>
        match ext.NewAttributeValueRaw value with
        | .error err => (([], some err), calls ++ [Call.NewAttributeValueRaw index value])
        | .ok val =>
          if config.MatchType = filterset.MatchType.Regexp then
            if val.Type ≠ AttributeValueType.AttributeValueTypeString then
              (([], some (Error.Errorf "%s=%s for %q only supports STRING, but found %s"
                  spec.Key val.Type.String)),
                calls ++ [Call.NewAttributeValueRaw index value])
            else
              match ext.CreateFilterSet [val.StringVal] config with
              | .error err =>
                (([], some err),
                  calls ++ [Call.NewAttributeValueRaw index value,
                    Call.CreateFilterSet index [val.StringVal] config])
              | .ok filter =>
                NewAttributesMatcher.loop ext config rest (index + 1)
                  (rawAttributes ++ [⟨spec.Key, none, some filter⟩])
                  (calls ++ [Call.NewAttributeValueRaw index value,
                    Call.CreateFilterSet index [val.StringVal] config])
          else
            NewAttributesMatcher.loop ext config rest (index + 1)
              (rawAttributes ++ [⟨spec.Key, some val, none⟩])
              (calls ++ [Call.NewAttributeValueRaw index value])

/-- The function `NewAttributesMatcher` with the collaborator invocations it makes. -/
def NewAttributesMatcher.run {Raw : Type} (ext : Collaborators Raw) (config : filterset.Config)
    (attributes : List (filterconfig.Attribute Raw)) :
    (AttributesMatcher × Option Error) × List (Call Raw) :=
  NewAttributesMatcher.loop ext config attributes 0 [] []

/-- The function `NewAttributesMatcher(config, attributes)`: the Go pair `(matcher, error)`,
a nil matcher being the empty list and a nil error being `none`. -/
def NewAttributesMatcher {Raw : Type} (ext : Collaborators Raw) (config : filterset.Config)
    (attributes : List (filterconfig.Attribute Raw)) : AttributesMatcher × Option Error :=
  (NewAttributesMatcher.run ext config attributes).1

/-- The collaborator invocations `NewAttributesMatcher` makes, in order. -/
def NewAttributesMatcher.calls {Raw : Type} (ext : Collaborators Raw)
    (config : filterset.Config) (attributes : List (filterconfig.Attribute Raw)) :
    List (Call Raw) :=
  (NewAttributesMatcher.run ext config attributes).2

/-- The function `attributeStringValue(attr)`: the Go pair `(string, error)`. `FormatFloat`
stands for `strconv.FormatFloat(·, 'f', -1, 64)`, which is not modelled. -/
def attributeStringValue (FormatFloat : Float64 → String) (attr : pdata.AttributeValue) :
    String × Option Error :=
  match attr.Type with
  | .AttributeValueTypeString => (attr.StringVal, none)
  | .AttributeValueTypeBool => (strconv.FormatBool attr.BoolVal, none)
  | .AttributeValueTypeDouble => (FormatFloat attr.DoubleVal, none)
  | .AttributeValueTypeInt => (strconv.FormatInt attr.IntVal, none)
  | _ => ("", some errUnexpectedAttributeType)

/-- The `for _, property := range ma` loop of `Match`. -/
def AttributesMatcher.Match.loop (FormatFloat : Float64 → String) :
    AttributesMatcher → pdata.AttributeMap → Bool
  | [], _ => true
  | property :: rest, attrs =>
    match attrs.Get property.Key with
    | none => false
    | some attr =>
      match property.StringFilter with
      | some filter =>
        match attributeStringValue FormatFloat attr with
        | (value, err) =>
          if err ≠ none || !filter.Matches value then false
          else AttributesMatcher.Match.loop FormatFloat rest attrs
      | none =>
        match property.AttributeValue with
        | some expected =>
          if !attr.Equal expected then false
          else AttributesMatcher.Match.loop FormatFloat rest attrs
        | none => AttributesMatcher.Match.loop FormatFloat rest attrs

/-- Match attributes specification against a span/log: `ma.Match(attrs)`. -/
def AttributesMatcher.Match (FormatFloat : Float64 → String) (ma : AttributesMatcher)
    (attrs : pdata.AttributeMap) : Bool :=
  if ma.length = 0 then true
  else if attrs.Len = 0 then false
  else AttributesMatcher.Match.loop FormatFloat ma attrs

/-- The test the body of the loop of `Match` makes on one property: false where
the body returns false, true where it goes on to the next property. -/
def AttributeMatcher.check (FormatFloat : Float64 → String) (property : AttributeMatcher)
    (attrs : pdata.AttributeMap) : Bool :=
  match attrs.Get property.Key with
  | none => false
  | some attr =>
    match property.StringFilter with
    | some filter =>
      decide ((attributeStringValue FormatFloat attr).2 = none) &&
        filter.Matches (attributeStringValue FormatFloat attr).1
    | none =>
      match property.AttributeValue with
      | some expected => attr.Equal expected
      | none => true

/-! ## The data model of the specification -/

/-- The matching rule of a criterion, in the words of the specification:
presence only, exact value, or pattern. -/
inductive Mode where
  | KeyOnly
  | ExactValue (v : pdata.AttributeValue)
  | Pattern (filter : filterset.FilterSet)

/-- One compiled matching rule, in the words of the specification: a key and
a mode. -/
structure Criterion where
  key : String
  mode : Mode

/-- The `AttributeMatcher` that represents a criterion: both pointers nil for
key-only, `AttributeValue` set for exact value, `StringFilter` set for pattern. -/
def Criterion.toMatcher (c : Criterion) : AttributeMatcher :=
  match c.mode with
  | .KeyOnly => ⟨c.key, none, none⟩
  | .ExactValue v => ⟨c.key, some v, none⟩
  | .Pattern filter => ⟨c.key, none, some filter⟩

/-- A criterion passes on an attribute map, in the words of the specification:
its key is present and (key-only) nothing more, (exact) the attribute value
equals the configured value, (pattern) the attribute value coerces to a string
that the filter matches. -/
def Criterion.passes (FormatFloat : Float64 → String) (c : Criterion)
    (attrs : pdata.AttributeMap) : Prop :=
  ∃ attr, attrs.Get c.key = some attr ∧
    match c.mode with
    | .KeyOnly => True
    | .ExactValue v => attr = v
    | .Pattern filter =>
      ∃ s, attributeStringValue FormatFloat attr = (s, none) ∧ filter.Matches s = true

/-- The number a list of decimal digit characters denotes. -/
def decimalValue (digits : List Char) : Nat :=
  digits.foldl (fun acc c => 10 * acc + (c.toNat - 48)) 0

/-- A reader of decimal integers: an optional `-`, then one or more digits. -/
def parseDecimal (s : String) : Option Int :=
  if s.data.head? = some '-' then
    if s.data.tail ≠ [] ∧ s.data.tail.all Char.isDigit then
      some (-(decimalValue s.data.tail : Int))
    else none
  else if s.data ≠ [] ∧ s.data.all Char.isDigit then some (decimalValue s.data : Int)
  else none

/-- The list `digits` is the decimal numeral of `u` without leading zeros: it
is not empty, holds only the characters `0` to `9`, starts with `0` only when
it is the single digit `0`, and denotes `u`. -/
def IsDecimalOf (digits : List Char) (u : Nat) : Prop :=
  digits ≠ [] ∧ (∀ c ∈ digits, c.isDigit = true) ∧
    (digits.head? = some '0' → digits = ['0']) ∧ decimalValue digits = u

/-- The string `s` is the canonical base-10 decimal string of `n`, in the words
of the specification: a `-` exactly when `n` is negative, then the decimal
numeral of the absolute value without leading zeros, and nothing else. -/
def IsCanonicalDecimal (s : String) (n : Int) : Prop :=
  ∃ digits : List Char,
    s.data = (if n < 0 then ['-'] else []) ++ digits ∧ IsDecimalOf digits n.natAbs

/-- The position of the spec during whose processing a collaborator was invoked. -/
def Call.index {Raw : Type} : Call Raw → Nat
  | .NewAttributeValueRaw index _ => index
  | .CreateFilterSet index _ _ => index

/-- One turn of the loop of `NewAttributesMatcher` taken alone: the error it
returns or the entry it appends, and the collaborator invocations it makes. -/
def NewAttributesMatcher.body {Raw : Type} (ext : Collaborators Raw) (config : filterset.Config)
    (index : Nat) (spec : filterconfig.Attribute Raw) :
    Except Error AttributeMatcher × List (Call Raw) :=
  if spec.Key = "" then
    (.error (Error.New "can't have empty key in the list of attributes"), [])
  else
    match spec.Value with
    | none => (.ok ⟨spec.Key, none, none⟩, [])
    | some value =>
      match ext.NewAttributeValueRaw value with
      | .error err => (.error err, [Call.NewAttributeValueRaw index value])
      | .ok val =>
        if config.MatchType = filterset.MatchType.Regexp then
          if val.Type ≠ AttributeValueType.AttributeValueTypeString then
            (.error (Error.Errorf "%s=%s for %q only supports STRING, but found %s"
                spec.Key val.Type.String),
              [Call.NewAttributeValueRaw index value])
          else
            match ext.CreateFilterSet [val.StringVal] config with
            | .error err =>
              (.error err,
                [Call.NewAttributeValueRaw index value,
                  Call.CreateFilterSet index [val.StringVal] config])
            | .ok filter =>
              (.ok ⟨spec.Key, none, some filter⟩,
                [Call.NewAttributeValueRaw index value,
                  Call.CreateFilterSet index [val.StringVal] config])
        else
          (.ok ⟨spec.Key, some val, none⟩, [Call.NewAttributeValueRaw index value])

/-! ## Sample inputs -/

/-- A float formatter for the sample inputs: it prints the bit pattern. -/
def sampleFormatFloat (d : Float64) : String :=
  toString d.bits

/-- A sample filter: it matches the strings that start with `GET`. -/
def sampleFilter : filterset.FilterSet :=
  ⟨fun s => "GET".isPrefixOf s⟩

/-- Sample collaborators over raw values that are already typed. The normalizer
rejects the value without payload; the pattern compiler rejects the pattern
`(` and builds a filter that matches the strings starting with the pattern. -/
def sampleCollaborators : Collaborators pdata.AttributeValue where
  NewAttributeValueRaw := fun value =>
    match value with
    | .empty => .error (Error.New "error unsupported value type")
    | val => .ok val
  CreateFilterSet := fun patterns _ =>
    if patterns.contains "(" then .error (Error.New "error parsing regexp")
    else .ok ⟨fun s => patterns.any (fun pattern => pattern.isPrefixOf s)⟩

end filtermatcher

/-! # Properties -/

namespace pdata

mutual
/-- The test `Equal` is true exactly on equal values. -/
theorem AttributeValue.Equal_iff : ∀ (a b : AttributeValue), a.Equal b = true ↔ a = b
  | .empty, b => by cases b <;> simp [AttributeValue.Equal]
  | .ofString a, b => by cases b <;> simp [AttributeValue.Equal]
  | .ofBool a, b => by cases b <;> simp [AttributeValue.Equal]
  | .ofInt a, b => by cases b <;> simp [AttributeValue.Equal]
  | .ofDouble a, b => by cases b <;> simp [AttributeValue.Equal]
  | .ofBytes a, b => by cases b <;> simp [AttributeValue.Equal]
  | .ofArray a, b => by
      cases b <;> simp [AttributeValue.Equal]
      exact AttributeValue.equalItems_iff a _
  | .ofMap a, b => by
      cases b <;> simp [AttributeValue.Equal]
      exact AttributeValue.equalEntries_iff a _
/-- The test `equalItems` is true exactly on equal lists. -/
theorem AttributeValue.equalItems_iff :
    ∀ (a b : List AttributeValue), AttributeValue.equalItems a b = true ↔ a = b
  | [], b => by cases b <;> simp [AttributeValue.equalItems]
  | x :: xs, b => by
      cases b with
      | nil => simp [AttributeValue.equalItems]
      | cons y ys =>
        simp [AttributeValue.equalItems, AttributeValue.Equal_iff x y,
          AttributeValue.equalItems_iff xs ys]
/-- The test `equalEntries` is true exactly on equal lists of entries. -/
theorem AttributeValue.equalEntries_iff :
    ∀ (a b : List (String × AttributeValue)), AttributeValue.equalEntries a b = true ↔ a = b
  | [], b => by cases b <;> simp [AttributeValue.equalEntries]
  | (k, x) :: xs, b => by
      cases b with
      | nil => simp [AttributeValue.equalEntries]
      | cons y ys =>
        obtain ⟨l, y⟩ := y
        simp [AttributeValue.equalEntries, AttributeValue.Equal_iff x y,
          AttributeValue.equalEntries_iff xs ys, and_assoc]
end

/-- A map of length 0 has no key present. -/
theorem AttributeMap.Get_of_Len_eq_zero (attrs : AttributeMap) (key : String)
    (h : attrs.Len = 0) : attrs.Get key = none := by
  obtain ⟨orig⟩ := attrs
  cases orig with
  | nil => rfl
  | cons e rest => simp [AttributeMap.Len] at h

end pdata

namespace filtermatcher

open pdata

/-- One turn of the loop of `Match`: the test on the property, then the rest. -/
theorem Match_loop_cons (FormatFloat : Float64 → String) (property : AttributeMatcher)
    (rest : AttributesMatcher) (attrs : pdata.AttributeMap) :
    AttributesMatcher.Match.loop FormatFloat (property :: rest) attrs
      = (property.check FormatFloat attrs
          && AttributesMatcher.Match.loop FormatFloat rest attrs) := by
  simp only [AttributesMatcher.Match.loop, AttributeMatcher.check]
  cases attrs.Get property.Key with
  | none => simp
  | some attr =>
    cases property.StringFilter with
    | some filter =>
      cases (attributeStringValue FormatFloat attr).2 <;>
        cases filter.Matches (attributeStringValue FormatFloat attr).1 <;> simp
    | none =>
      cases property.AttributeValue with
      | some expected => cases attr.Equal expected <;> simp
      | none => simp

/-- The loop of `Match` is the conjunction of the per-property tests. -/
theorem Match_loop_eq_all (FormatFloat : Float64 → String) (ma : AttributesMatcher)
    (attrs : pdata.AttributeMap) :
    AttributesMatcher.Match.loop FormatFloat ma attrs
      = ma.all (fun property => property.check FormatFloat attrs) := by
  induction ma with
  | nil => rfl
  | cons property rest ih => rw [Match_loop_cons, ih, List.all_cons]

/-- The two early returns of `Match` do not change the conjunction. -/
theorem Match_eq_all (FormatFloat : Float64 → String) (ma : AttributesMatcher)
    (attrs : pdata.AttributeMap) :
    AttributesMatcher.Match FormatFloat ma attrs
      = ma.all (fun property => property.check FormatFloat attrs) := by
  unfold AttributesMatcher.Match
  cases ma with
  | nil => rfl
  | cons property rest =>
    by_cases hlen : attrs.Len = 0
    · simp [hlen, AttributeMatcher.check, AttributeMap.Get_of_Len_eq_zero attrs _ hlen]
    · simp [hlen, Match_loop_eq_all]

/-- The per-property test on the matcher of a criterion is the criterion
passing. -/
theorem check_toMatcher_iff (FormatFloat : Float64 → String) (c : Criterion)
    (attrs : pdata.AttributeMap) :
    c.toMatcher.check FormatFloat attrs = true ↔ c.passes FormatFloat attrs := by
  obtain ⟨key, mode⟩ := c
  unfold Criterion.passes Criterion.toMatcher AttributeMatcher.check
  cases mode with
  | KeyOnly => cases hget : attrs.Get key <;> simp
  | ExactValue v =>
    cases hget : attrs.Get key with
    | none => simp
    | some attr => simp [AttributeValue.Equal_iff]
  | Pattern filter =>
    cases hget : attrs.Get key with
    | none => simp
    | some attr =>
      simp only [Option.some.injEq, exists_eq_left', Bool.and_eq_true, decide_eq_true_eq]
      constructor
      · rintro ⟨h1, h2⟩
        exact ⟨_, Prod.ext rfl h1, h2⟩
      · rintro ⟨s, h1, h2⟩
        rw [h1]
        exact ⟨rfl, h2⟩

/-- The result of `Match` on the matcher of a list of criteria is true exactly when every
criterion passes. -/
theorem Match_map_toMatcher_iff (FormatFloat : Float64 → String)
    (criteria : List Criterion) (attrs : pdata.AttributeMap) :
    AttributesMatcher.Match FormatFloat (criteria.map Criterion.toMatcher) attrs = true
      ↔ ∀ c ∈ criteria, c.passes FormatFloat attrs := by
  rw [Match_eq_all]
  simp [List.all_eq_true, check_toMatcher_iff]

/-- C1: for every attribute map and every list of criteria (any length, any
mix of key-only, exact-value and pattern criteria, duplicates allowed), `Match`
on the compiled list returns true if and only if every criterion individually
passes on the attribute map. The two early returns do not change this. -/
theorem C1_Match_iff_every_criterion_passes (FormatFloat : Float64 → String)
    (criteria : List Criterion) (attrs : pdata.AttributeMap) :
    AttributesMatcher.Match FormatFloat (criteria.map Criterion.toMatcher) attrs = true
      ↔ ∀ c ∈ criteria, c.passes FormatFloat attrs :=
  Match_map_toMatcher_iff FormatFloat criteria attrs

/-- C2: for every match configuration, `NewAttributesMatcher` on an empty list
of specs returns an empty matcher and no error, and `Match` of that matcher
returns true for every attribute map, the empty one included. -/
theorem C2_empty_specs_compile_and_match_everything {Raw : Type} (ext : Collaborators Raw)
    (config : filterset.Config) (FormatFloat : Float64 → String) :
    NewAttributesMatcher ext config [] = ([], none) ∧
      ∀ attrs : pdata.AttributeMap,
        AttributesMatcher.Match FormatFloat (NewAttributesMatcher ext config []).1 attrs
          = true := by
  constructor
  · rfl
  · intro attrs
    rfl

/-- C3: for every non-empty list of criteria, whatever their modes, and every
attribute map of length 0, `Match` returns false. -/
theorem C3_nonempty_matcher_rejects_empty_map (FormatFloat : Float64 → String)
    (ma : AttributesMatcher) (attrs : pdata.AttributeMap)
    (hma : ma ≠ []) (hlen : attrs.Len = 0) :
    AttributesMatcher.Match FormatFloat ma attrs = false := by
  unfold AttributesMatcher.Match
  cases ma with
  | nil => exact absurd rfl hma
  | cons property rest => simp [hlen]

/-- Witness of C3: a single pattern criterion on the map without entries. -/
theorem C3_nonempty_matcher_rejects_empty_map_witness :
    ([⟨"http.method", none, some sampleFilter⟩] : AttributesMatcher) ≠ [] ∧
      (AttributeMap.mk []).Len = 0 ∧
      AttributesMatcher.Match sampleFormatFloat
        [⟨"http.method", none, some sampleFilter⟩] (AttributeMap.mk []) = false :=
  ⟨by simp, rfl,
    C3_nonempty_matcher_rejects_empty_map sampleFormatFloat _ _ (by simp) rfl⟩

/-- C4: for a matcher made of a single exact-value criterion (key `k`,
configured value `v`), `Match` returns true if and only if `k` is present and
the value stored under it equals `v` in variant tag and payload. With
`v = Int(200)` the map `{k: Int(200)}` matches, `{k: Int(404)}` does not, and
`{k: Double(d)}` does not, whatever the float `d`. -/
theorem C4_single_exact_value_criterion (FormatFloat : Float64 → String) (k : String)
    (v : pdata.AttributeValue) (attrs : pdata.AttributeMap) :
    (AttributesMatcher.Match FormatFloat [⟨k, some v, none⟩] attrs = true
        ↔ ∃ attr, attrs.Get k = some attr ∧ attr.Type = v.Type ∧ attr = v) ∧
      AttributesMatcher.Match FormatFloat [⟨k, some (.ofInt 200), none⟩]
        ⟨[(k, .ofInt 200)]⟩ = true ∧
      AttributesMatcher.Match FormatFloat [⟨k, some (.ofInt 200), none⟩]
        ⟨[(k, .ofInt 404)]⟩ = false ∧
      ∀ d : Float64,
        AttributesMatcher.Match FormatFloat [⟨k, some (.ofInt 200), none⟩]
          ⟨[(k, .ofDouble d)]⟩ = false := by
  refine ⟨?_, ?_, ?_, ?_⟩
  · rw [Match_eq_all]
    simp only [List.all_cons, List.all_nil, Bool.and_true, AttributeMatcher.check]
    cases attrs.Get k with
    | none => simp
    | some attr =>
      simp only [AttributeValue.Equal_iff, Option.some.injEq, exists_eq_left']
      constructor
      · intro h
        exact ⟨by rw [h], h⟩
      · intro h
        exact h.2
  · rw [Match_eq_all]
    simp [AttributeMatcher.check, AttributeMap.Get, lookup, AttributeValue.Equal]
  · rw [Match_eq_all]
    simp [AttributeMatcher.check, AttributeMap.Get, lookup, AttributeValue.Equal]
  · intro d
    rw [Match_eq_all]
    simp [AttributeMatcher.check, AttributeMap.Get, lookup, AttributeValue.Equal]

/-- C5: for a matcher made of a single key-only criterion with key `k`, `Match`
returns true if and only if `k` is present in the attribute map, whatever the
variant and payload of the value stored under `k`. -/
theorem C5_single_key_only_criterion (FormatFloat : Float64 → String) (k : String)
    (attrs : pdata.AttributeMap) :
    (AttributesMatcher.Match FormatFloat [⟨k, none, none⟩] attrs = true
        ↔ ∃ attr, attrs.Get k = some attr) ∧
      ∀ (value : pdata.AttributeValue) (others : List (String × pdata.AttributeValue)),
        AttributesMatcher.Match FormatFloat [⟨k, none, none⟩] ⟨(k, value) :: others⟩
          = true := by
  constructor
  · rw [Match_eq_all]
    simp only [List.all_cons, List.all_nil, Bool.and_true, AttributeMatcher.check]
    cases attrs.Get k <;> simp
  · intro value others
    rw [Match_eq_all]
    simp [AttributeMatcher.check, AttributeMap.Get, lookup]

/-- C6: for a matcher made of a single pattern criterion (key `k`, filter `f`),
`Match` returns true if and only if `k` is present, `attributeStringValue` of
the value stored under it succeeds with some string `s`, and `f.Matches(s)` is
true. When the value under `k` is of a variant other than String, Bool, Int and
Double, `Match` returns false for every filter, also one that matches every
string. -/
theorem C6_single_pattern_criterion (FormatFloat : Float64 → String) (k : String)
    (attrs : pdata.AttributeMap) :
    (∀ f : filterset.FilterSet,
        AttributesMatcher.Match FormatFloat [⟨k, none, some f⟩] attrs = true
          ↔ ∃ attr s, attrs.Get k = some attr ∧
              attributeStringValue FormatFloat attr = (s, none) ∧ f.Matches s = true) ∧
      ∀ attr, attrs.Get k = some attr →
        attr.Type ≠ .AttributeValueTypeString → attr.Type ≠ .AttributeValueTypeBool →
        attr.Type ≠ .AttributeValueTypeInt → attr.Type ≠ .AttributeValueTypeDouble →
        ∀ f : filterset.FilterSet,
          AttributesMatcher.Match FormatFloat [⟨k, none, some f⟩] attrs = false := by
  have key : ∀ f : filterset.FilterSet,
      AttributesMatcher.Match FormatFloat [⟨k, none, some f⟩] attrs = true
        ↔ ∃ attr s, attrs.Get k = some attr ∧
            attributeStringValue FormatFloat attr = (s, none) ∧ f.Matches s = true := by
    intro f
    have h := Match_map_toMatcher_iff FormatFloat [⟨k, .Pattern f⟩] attrs
    simpa [Criterion.toMatcher, Criterion.passes] using h
  refine ⟨key, ?_⟩
  intro attr hget hs hb hi hd f
  cases hm : AttributesMatcher.Match FormatFloat [⟨k, none, some f⟩] attrs with
  | false => rfl
  | true =>
    obtain ⟨attr2, s, hget2, hstr, -⟩ := (key f).1 hm
    rw [hget] at hget2
    cases hget2
    exfalso
    unfold attributeStringValue at hstr
    cases ht : attr.Type <;> simp_all [errUnexpectedAttributeType]

/-- Witness of C6: a Bytes value under the key of a filter that matches every
string. -/
theorem C6_single_pattern_criterion_witness :
    (AttributeMap.mk [("body", .ofBytes [71, 69, 84])]).Get "body"
        = some (.ofBytes [71, 69, 84]) ∧
      (AttributeValue.ofBytes [71, 69, 84]).Type ≠ .AttributeValueTypeString ∧
      (AttributeValue.ofBytes [71, 69, 84]).Type ≠ .AttributeValueTypeBool ∧
      (AttributeValue.ofBytes [71, 69, 84]).Type ≠ .AttributeValueTypeInt ∧
      (AttributeValue.ofBytes [71, 69, 84]).Type ≠ .AttributeValueTypeDouble ∧
      AttributesMatcher.Match sampleFormatFloat [⟨"body", none, some ⟨fun _ => true⟩⟩]
        ⟨[("body", .ofBytes [71, 69, 84])]⟩ = false :=
  ⟨rfl, by decide, by decide, by decide, by decide,
    (C6_single_pattern_criterion sampleFormatFloat "body"
        ⟨[("body", .ofBytes [71, 69, 84])]⟩).2
      (.ofBytes [71, 69, 84]) rfl (by decide) (by decide) (by decide) (by decide)
      ⟨fun _ => true⟩⟩

/-! ### String coercion -/

/-- The character of a digit below ten is a decimal digit. -/
theorem digitChar_isDigit (u : Nat) (h : u < 10) : (strconv.digitChar u).isDigit = true := by
  interval_cases u <;> decide

/-- The character of a digit below ten denotes that digit. -/
theorem digitChar_toNat (u : Nat) (h : u < 10) : (strconv.digitChar u).toNat - 48 = u := by
  interval_cases u <;> decide

/-- Appending a digit multiplies the value by ten and adds the digit. -/
theorem decimalValue_append_singleton (ds : List Char) (c : Char) :
    decimalValue (ds ++ [c]) = 10 * decimalValue ds + (c.toNat - 48) := by
  simp [decimalValue, List.foldl_append]

/-- With enough fuel `formatBits` puts the decimal numeral of `u` in front of
the accumulator. -/
theorem formatBits_spec : ∀ (u fuel : Nat) (acc : List Char), u < fuel →
    ∃ ds, strconv.formatBits fuel u acc = ds ++ acc ∧ IsDecimalOf ds u := by
  intro u
  induction u using Nat.strong_induction_on with
  | _ u ih =>
    intro fuel acc hfuel
    cases fuel with
    | zero => omega
    | succ f =>
      by_cases hu : u < 10
      · refine ⟨[strconv.digitChar u], by simp [strconv.formatBits, hu], by simp, ?_, ?_, ?_⟩
        · intro c hc
          simp only [List.mem_singleton] at hc
          rw [hc]
          exact digitChar_isDigit u hu
        · intro h
          simp only [List.head?_cons, Option.some.injEq] at h
          rw [h]
        · simp [decimalValue, digitChar_toNat u hu]
      · have hlt : u / 10 < u := Nat.div_lt_self (by omega) (by omega)
        obtain ⟨ds, hds, hne, hdig, hhead, hval⟩ :=
          ih (u / 10) hlt f (strconv.digitChar (u % 10) :: acc) (by omega)
        refine ⟨ds ++ [strconv.digitChar (u % 10)], ?_, by simp, ?_, ?_, ?_⟩
        · simp [strconv.formatBits, hu, hds]
        · intro c hc
          rcases List.mem_append.1 hc with h | h
          · exact hdig c h
          · simp only [List.mem_singleton] at h
            rw [h]
            exact digitChar_isDigit _ (Nat.mod_lt _ (by omega))
        · intro h
          exfalso
          cases ds with
          | nil => exact hne rfl
          | cons d rest =>
            simp only [List.cons_append, List.head?_cons, Option.some.injEq] at h
            have h0 := hhead (by simp [h])
            rw [h0] at hval
            have : u / 10 = 0 := by
              rw [← hval]
              decide
            omega
        · rw [decimalValue_append_singleton, hval, digitChar_toNat _ (Nat.mod_lt _ (by omega))]
          omega

/-- The string `FormatInt` returns is the canonical decimal string. -/
theorem FormatInt_canonical (n : Int) : IsCanonicalDecimal (strconv.FormatInt n) n := by
  obtain ⟨ds, hds, hdec⟩ := formatBits_spec n.natAbs (n.natAbs + 1) [] (by omega)
  refine ⟨ds, ?_, hdec⟩
  unfold strconv.FormatInt
  by_cases hn : n < 0 <;> simp [hn, hds]

/-- A canonical decimal string reads back as the integer it was made from. -/
theorem parseDecimal_of_canonical (s : String) (n : Int) (h : IsCanonicalDecimal s n) :
    parseDecimal s = some n := by
  obtain ⟨ds, hdata, hne, hdig, hhead, hval⟩ := h
  have hall : ds.all Char.isDigit = true := by
    rw [List.all_eq_true]
    exact hdig
  unfold parseDecimal
  by_cases hn : n < 0
  · simp only [hn, if_true, List.singleton_append] at hdata
    simp only [hdata, List.head?_cons, List.tail_cons, if_true, hne, ne_eq, not_false_eq_true,
      hall, and_self, hval, Option.some.injEq]
    omega
  · simp only [hn, if_false, List.nil_append] at hdata
    have hh : ds.head? ≠ some '-' := by
      cases ds with
      | nil => exact absurd rfl hne
      | cons d rest =>
        intro h
        simp only [List.head?_cons, Option.some.injEq] at h
        have := hdig d (by simp)
        rw [h] at this
        exact absurd this (by decide)
    simp only [hdata, hh, if_false, hne, ne_eq, not_false_eq_true, hall, and_self, if_true, hval,
      Option.some.injEq]
    omega

/-- A canonical decimal string holds no `+`. -/
theorem no_plus_of_canonical (s : String) (n : Int) (h : IsCanonicalDecimal s n) :
    '+' ∉ s.data := by
  obtain ⟨ds, hdata, -, hdig, -, -⟩ := h
  intro hmem
  rw [hdata] at hmem
  rcases List.mem_append.1 hmem with h1 | h1
  · by_cases hn : n < 0
    · simp [hn] at h1
    · simp [hn] at h1
  · exact absurd (hdig _ h1) (by decide)

/-- C7: `attributeStringValue` follows the String Coercion rule. A String is
returned unchanged, with no error; a Bool gives exactly `"true"` or `"false"`;
an Int `n`, 64-bit or not, gives the canonical base-10 decimal string of `n`
(a `-` exactly when `n` is negative, no leading zeros, no `+`, reading back as
`n`); a Double gives a string without error; and the error
`errUnexpectedAttributeType`, with the empty string, is returned if and only if
the variant is none of String, Bool, Int, Double. -/
theorem C7_attributeStringValue_coercion (FormatFloat : Float64 → String) :
    (∀ s : String, attributeStringValue FormatFloat (.ofString s) = (s, none)) ∧
      attributeStringValue FormatFloat (.ofBool true) = ("true", none) ∧
      attributeStringValue FormatFloat (.ofBool false) = ("false", none) ∧
      (∀ n : Int, ∃ s : String,
        attributeStringValue FormatFloat (.ofInt n) = (s, none) ∧
          IsCanonicalDecimal s n ∧ '+' ∉ s.data ∧ parseDecimal s = some n) ∧
      (∀ d : Float64, attributeStringValue FormatFloat (.ofDouble d) = (FormatFloat d, none)) ∧
      (∀ attr : pdata.AttributeValue,
        attributeStringValue FormatFloat attr = ("", some errUnexpectedAttributeType)
          ↔ (attr.Type ≠ .AttributeValueTypeString ∧ attr.Type ≠ .AttributeValueTypeBool ∧
              attr.Type ≠ .AttributeValueTypeInt ∧ attr.Type ≠ .AttributeValueTypeDouble)) ∧
      (∀ attr : pdata.AttributeValue,
        (attributeStringValue FormatFloat attr).2 ≠ none
          ↔ (attr.Type ≠ .AttributeValueTypeString ∧ attr.Type ≠ .AttributeValueTypeBool ∧
              attr.Type ≠ .AttributeValueTypeInt ∧ attr.Type ≠ .AttributeValueTypeDouble)) := by
  refine ⟨fun s => rfl, rfl, rfl, ?_, fun d => rfl, ?_, ?_⟩
  · intro n
    exact ⟨strconv.FormatInt n, rfl, FormatInt_canonical n,
      no_plus_of_canonical _ n (FormatInt_canonical n),
      parseDecimal_of_canonical _ n (FormatInt_canonical n)⟩
  · intro attr
    cases attr <;>
      simp [attributeStringValue, AttributeValue.Type, errUnexpectedAttributeType]
  · intro attr
    cases attr <;>
      simp [attributeStringValue, AttributeValue.Type, errUnexpectedAttributeType]

/-! ### Compilation -/

/-- One turn of the loop of `NewAttributesMatcher`: the turn taken alone, then
the rest of the specs. -/
theorem NewAttributesMatcher_loop_cons {Raw : Type} (ext : Collaborators Raw)
    (config : filterset.Config) (spec : filterconfig.Attribute Raw)
    (rest : List (filterconfig.Attribute Raw)) (index : Nat) (rawAttributes : AttributesMatcher)
    (calls : List (Call Raw)) :
    NewAttributesMatcher.loop ext config (spec :: rest) index rawAttributes calls =
      match NewAttributesMatcher.body ext config index spec with
      | (.error err, made) => (([], some err), calls ++ made)
      | (.ok entry, made) =>
        NewAttributesMatcher.loop ext config rest (index + 1) (rawAttributes ++ [entry])
          (calls ++ made) := by
  rw [NewAttributesMatcher.loop]
  unfold NewAttributesMatcher.body
  by_cases hkey : spec.Key = ""
  · simp [hkey]
  · simp only [hkey, if_false]
    cases spec.Value with
    | none => simp
    | some value =>
      simp only
      cases ext.NewAttributeValueRaw value with
      | error err => simp
      | ok val =>
        simp only
        by_cases hre : config.MatchType = filterset.MatchType.Regexp
        · simp only [hre, if_true]
          by_cases hty : val.Type = AttributeValueType.AttributeValueTypeString
          · simp only [hty, ne_eq, not_true_eq_false, if_false]
            cases ext.CreateFilterSet [val.StringVal] config with
            | error err => simp
            | ok filter => simp
          · simp [hty]
        · simp [hre]

/-- The error or entry of a turn does not depend on the position of the spec. -/
theorem NewAttributesMatcher_body_fst {Raw : Type} (ext : Collaborators Raw)
    (config : filterset.Config) (i j : Nat) (spec : filterconfig.Attribute Raw) :
    (NewAttributesMatcher.body ext config i spec).1
      = (NewAttributesMatcher.body ext config j spec).1 := by
  unfold NewAttributesMatcher.body
  by_cases hkey : spec.Key = ""
  · simp [hkey]
  · simp only [hkey, if_false]
    cases spec.Value with
    | none => simp
    | some value =>
      simp only
      cases ext.NewAttributeValueRaw value with
      | error err => simp
      | ok val =>
        simp only
        by_cases hre : config.MatchType = filterset.MatchType.Regexp
        · simp only [hre, if_true]
          by_cases hty : val.Type = AttributeValueType.AttributeValueTypeString
          · simp only [hty, ne_eq, not_true_eq_false, if_false]
            cases ext.CreateFilterSet [val.StringVal] config with
            | error err => simp
            | ok filter => simp
          · simp [hty]
        · simp [hre]

/-- The collaborator invocations of a turn carry the position of its spec. -/
theorem NewAttributesMatcher_body_calls_index {Raw : Type} (ext : Collaborators Raw)
    (config : filterset.Config) (index : Nat) (spec : filterconfig.Attribute Raw) :
    ∀ c ∈ (NewAttributesMatcher.body ext config index spec).2, c.index = index := by
  unfold NewAttributesMatcher.body
  by_cases hkey : spec.Key = ""
  · simp [hkey]
  · simp only [hkey, if_false]
    cases spec.Value with
    | none => simp
    | some value =>
      simp only
      cases ext.NewAttributeValueRaw value with
      | error err => simp [Call.index]
      | ok val =>
        simp only
        by_cases hre : config.MatchType = filterset.MatchType.Regexp
        · simp only [hre, if_true]
          by_cases hty : val.Type = AttributeValueType.AttributeValueTypeString
          · simp only [hty, ne_eq, not_true_eq_false, if_false]
            cases ext.CreateFilterSet [val.StringVal] config with
            | error err => simp [Call.index]
            | ok filter => simp [Call.index]
          · simp [hty, Call.index]
        · simp [hre, Call.index]

/-- A spec compiled alone fails exactly when its turn of the loop fails. -/
theorem NewAttributesMatcher_singleton {Raw : Type} (ext : Collaborators Raw)
    (config : filterset.Config) (index : Nat) (spec : filterconfig.Attribute Raw) :
    (NewAttributesMatcher ext config [spec]).2 =
      match (NewAttributesMatcher.body ext config index spec).1 with
      | .error err => some err
      | .ok _ => none := by
  unfold NewAttributesMatcher NewAttributesMatcher.run
  rw [NewAttributesMatcher_loop_cons, NewAttributesMatcher_body_fst ext config index 0]
  rcases h : NewAttributesMatcher.body ext config 0 spec with ⟨res, made⟩
  cases res with
  | error err => rfl
  | ok entry => rfl

/-- On an error the loop returns the nil matcher; without an error it returns
the entries it started from followed by one entry for each spec. -/
theorem NewAttributesMatcher_loop_matcher {Raw : Type} (ext : Collaborators Raw)
    (config : filterset.Config) :
    ∀ (specs : List (filterconfig.Attribute Raw)) (index : Nat)
      (rawAttributes : AttributesMatcher) (calls : List (Call Raw)),
      ((NewAttributesMatcher.loop ext config specs index rawAttributes calls).1.2 ≠ none →
          (NewAttributesMatcher.loop ext config specs index rawAttributes calls).1.1 = []) ∧
        ((NewAttributesMatcher.loop ext config specs index rawAttributes calls).1.2 = none →
          (NewAttributesMatcher.loop ext config specs index rawAttributes calls).1.1.length
            = rawAttributes.length + specs.length) := by
  intro specs
  induction specs with
  | nil =>
    intro index rawAttributes calls
    simp [NewAttributesMatcher.loop]
  | cons spec rest ih =>
    intro index rawAttributes calls
    rw [NewAttributesMatcher_loop_cons]
    rcases h : NewAttributesMatcher.body ext config index spec with ⟨res, made⟩
    cases res with
    | error err => simp
    | ok entry =>
      simp only
      have := ih (index + 1) (rawAttributes ++ [entry]) (calls ++ made)
      refine ⟨this.1, fun hnone => ?_⟩
      rw [this.2 hnone]
      simp only [List.length_append, List.length_cons, List.length_nil]
      omega

/-- A spec with an empty key anywhere in the list makes the loop fail. -/
theorem NewAttributesMatcher_loop_empty_key {Raw : Type} (ext : Collaborators Raw)
    (config : filterset.Config) :
    ∀ (specs : List (filterconfig.Attribute Raw)) (index : Nat)
      (rawAttributes : AttributesMatcher) (calls : List (Call Raw)),
      (∃ spec ∈ specs, spec.Key = "") →
        (NewAttributesMatcher.loop ext config specs index rawAttributes calls).1.2 ≠ none := by
  intro specs
  induction specs with
  | nil =>
    intro index rawAttributes calls h
    simp at h
  | cons spec rest ih =>
    intro index rawAttributes calls h
    rw [NewAttributesMatcher_loop_cons]
    rcases hb : NewAttributesMatcher.body ext config index spec with ⟨res, made⟩
    cases res with
    | error err => simp
    | ok entry =>
      simp only
      apply ih
      obtain ⟨bad, hmem, hkey⟩ := h
      rcases List.mem_cons.1 hmem with heq | hin
      · exfalso
        subst heq
        simp [NewAttributesMatcher.body, hkey] at hb
      · exact ⟨bad, hin, hkey⟩

/-- Past specs that all compile alone, the loop goes on with the specs that
follow, at their position. -/
theorem NewAttributesMatcher_loop_append {Raw : Type} (ext : Collaborators Raw)
    (config : filterset.Config) (post : List (filterconfig.Attribute Raw)) :
    ∀ (pre : List (filterconfig.Attribute Raw)) (index : Nat)
      (rawAttributes : AttributesMatcher) (calls : List (Call Raw)),
      (∀ spec ∈ pre, (NewAttributesMatcher ext config [spec]).2 = none) →
        ∃ entries made,
          NewAttributesMatcher.loop ext config (pre ++ post) index rawAttributes calls
            = NewAttributesMatcher.loop ext config post (index + pre.length)
                (rawAttributes ++ entries) (calls ++ made) ∧
          ∀ c ∈ made, index ≤ c.index ∧ c.index < index + pre.length := by
  intro pre
  induction pre with
  | nil =>
    intro index rawAttributes calls _
    exact ⟨[], [], by simp, by simp⟩
  | cons spec rest ih =>
    intro index rawAttributes calls hok
    rw [List.cons_append, NewAttributesMatcher_loop_cons]
    have hspec := hok spec (by simp)
    rw [NewAttributesMatcher_singleton ext config index] at hspec
    have hidx := NewAttributesMatcher_body_calls_index ext config index spec
    rcases hb : NewAttributesMatcher.body ext config index spec with ⟨res, made⟩
    rw [hb] at hspec hidx
    cases res with
    | error err => simp at hspec
    | ok entry =>
      simp only
      obtain ⟨entries, made2, heq, hcalls⟩ :=
        ih (index + 1) (rawAttributes ++ [entry]) (calls ++ made)
          (fun s hs => hok s (List.mem_cons_of_mem _ hs))
      refine ⟨entry :: entries, made ++ made2, ?_, ?_⟩
      · rw [heq]
        simp only [List.length_cons, List.append_assoc, List.singleton_append]
        congr 1
        omega
      · intro c hc
        rcases List.mem_append.1 hc with h1 | h1
        · have := hidx c h1
          simp only [List.length_cons]
          omega
        · have := hcalls c h1
          simp only [List.length_cons]
          omega

/-- The entry a turn of the loop appends carries the key of its spec. -/
theorem NewAttributesMatcher_body_key {Raw : Type} (ext : Collaborators Raw)
    (config : filterset.Config) (index : Nat) (spec : filterconfig.Attribute Raw)
    (entry : AttributeMatcher)
    (h : (NewAttributesMatcher.body ext config index spec).1 = .ok entry) :
    entry.Key = spec.Key := by
  unfold NewAttributesMatcher.body at h
  by_cases hkey : spec.Key = ""
  · simp [hkey] at h
  · simp only [hkey, if_false] at h
    cases hv : spec.Value with
    | none =>
      simp only [hv, Except.ok.injEq] at h
      rw [← h]
    | some value =>
      simp only [hv] at h
      cases hn : ext.NewAttributeValueRaw value with
      | error err => simp [hn] at h
      | ok val =>
        simp only [hn] at h
        by_cases hre : config.MatchType = filterset.MatchType.Regexp
        · simp only [hre, if_true] at h
          by_cases hty : val.Type = AttributeValueType.AttributeValueTypeString
          · simp only [hty, ne_eq, not_true_eq_false, if_false] at h
            cases hc : ext.CreateFilterSet [val.StringVal] config with
            | error err => simp [hc] at h
            | ok filter =>
              simp only [hc, Except.ok.injEq] at h
              rw [← h]
          · simp [hty] at h
        · simp only [hre, if_false, Except.ok.injEq] at h
          rw [← h]

/-- Without an error the keys of the returned entries are the keys the loop
started from followed by the keys of the specs, in order. -/
theorem NewAttributesMatcher_loop_keys {Raw : Type} (ext : Collaborators Raw)
    (config : filterset.Config) :
    ∀ (specs : List (filterconfig.Attribute Raw)) (index : Nat)
      (rawAttributes : AttributesMatcher) (calls : List (Call Raw)),
      (NewAttributesMatcher.loop ext config specs index rawAttributes calls).1.2 = none →
        (NewAttributesMatcher.loop ext config specs index rawAttributes calls).1.1.map
            (fun entry => entry.Key)
          = rawAttributes.map (fun entry => entry.Key) ++ specs.map (fun spec => spec.Key) := by
  intro specs
  induction specs with
  | nil =>
    intro index rawAttributes calls _
    simp [NewAttributesMatcher.loop]
  | cons spec rest ih =>
    intro index rawAttributes calls
    rw [NewAttributesMatcher_loop_cons]
    have hkey := NewAttributesMatcher_body_key ext config index spec
    rcases hb : NewAttributesMatcher.body ext config index spec with ⟨res, made⟩
    rw [hb] at hkey
    cases res with
    | error err => simp
    | ok entry =>
      simp only
      intro hnone
      rw [ih (index + 1) (rawAttributes ++ [entry]) (calls ++ made) hnone]
      simp [hkey entry rfl]

/-- Under Regexp a spec whose value normalizes to a non-String makes the loop
fail, and the loop does not invoke the pattern filter compiler at its position. -/
theorem NewAttributesMatcher_loop_non_string {Raw : Type} (ext : Collaborators Raw)
    (config : filterset.Config) (spec : filterconfig.Attribute Raw) (raw : Raw)
    (val : pdata.AttributeValue) (hregexp : config.MatchType = filterset.MatchType.Regexp)
    (hraw : spec.Value = some raw) (hval : ext.NewAttributeValueRaw raw = .ok val)
    (htype : val.Type ≠ AttributeValueType.AttributeValueTypeString) :
    ∀ (specs : List (filterconfig.Attribute Raw)) (j index : Nat)
      (rawAttributes : AttributesMatcher) (calls : List (Call Raw)),
      specs[j]? = some spec →
        (NewAttributesMatcher.loop ext config specs index rawAttributes calls).1.2 ≠ none ∧
          ∀ patterns cfg,
            Call.CreateFilterSet (index + j) patterns cfg
                ∈ (NewAttributesMatcher.loop ext config specs index rawAttributes calls).2 →
              Call.CreateFilterSet (index + j) patterns cfg ∈ calls := by
  intro specs
  induction specs with
  | nil =>
    intro j index rawAttributes calls h
    simp at h
  | cons head rest ih =>
    intro j index rawAttributes calls h
    rw [NewAttributesMatcher_loop_cons]
    cases j with
    | zero =>
      simp only [List.getElem?_cons_zero, Option.some.injEq] at h
      subst h
      by_cases hkey : head.Key = ""
      · simp [NewAttributesMatcher.body, hkey]
      · simp [NewAttributesMatcher.body, hkey, hraw, hval, hregexp, htype]
    | succ j =>
      simp only [List.getElem?_cons_succ] at h
      have hidx := NewAttributesMatcher_body_calls_index ext config index head
      rcases hb : NewAttributesMatcher.body ext config index head with ⟨res, made⟩
      rw [hb] at hidx
      have hmade : ∀ patterns cfg,
          Call.CreateFilterSet (index + (j + 1)) patterns cfg ∈ calls ++ made →
            Call.CreateFilterSet (index + (j + 1)) patterns cfg ∈ calls := by
        intro patterns cfg hmem
        rcases List.mem_append.1 hmem with h1 | h1
        · exact h1
        · have := hidx _ h1
          simp only [Call.index] at this
          omega
      cases res with
      | error err => exact ⟨by simp, hmade⟩
      | ok entry =>
        simp only
        have hstep := ih j (index + 1) (rawAttributes ++ [entry]) (calls ++ made) h
        have hadd : index + (j + 1) = index + 1 + j := by omega
        refine ⟨hstep.1, fun patterns cfg hmem => hmade patterns cfg ?_⟩
        rw [hadd] at hmem ⊢
        exact hstep.2 patterns cfg hmem

/-- C8: for every match configuration and every list of specs, a spec with an
empty key at any position, with or without a value, makes
`NewAttributesMatcher` return an error; and when every spec in front of a spec
with an empty key compiles alone, the error is the empty-key error, returned
with the nil matcher. -/
theorem C8_empty_key_is_rejected {Raw : Type} (ext : Collaborators Raw)
    (config : filterset.Config) (attributes : List (filterconfig.Attribute Raw)) :
    ((∃ spec ∈ attributes, spec.Key = "") →
        (NewAttributesMatcher ext config attributes).2 ≠ none) ∧
      ∀ (front : List (filterconfig.Attribute Raw)) (spec : filterconfig.Attribute Raw)
        (back : List (filterconfig.Attribute Raw)),
        attributes = front ++ spec :: back → spec.Key = "" →
        (∀ earlier ∈ front, (NewAttributesMatcher ext config [earlier]).2 = none) →
        NewAttributesMatcher ext config attributes
          = ([], some (Error.New "can't have empty key in the list of attributes")) := by
  constructor
  · intro h
    exact NewAttributesMatcher_loop_empty_key ext config attributes 0 [] [] h
  · intro front spec back hsplit hkey hfront
    obtain ⟨entries, made, heq, -⟩ :=
      NewAttributesMatcher_loop_append ext config (spec :: back) front 0 [] [] hfront
    unfold NewAttributesMatcher NewAttributesMatcher.run
    rw [hsplit, heq, NewAttributesMatcher.loop]
    simp [hkey]

/-- Witness of C8: under Regexp, a spec that compiles, then a spec with an
empty key and a value the normalizer rejects, then a spec with an Int value. -/
theorem C8_empty_key_is_rejected_witness :
    (∃ spec ∈ ([⟨"http.method", some (.ofString "GET")⟩, ⟨"", some .empty⟩,
          ⟨"http.status_code", some (.ofInt 200)⟩] :
          List (filterconfig.Attribute pdata.AttributeValue)), spec.Key = "") ∧
      (NewAttributesMatcher sampleCollaborators ⟨.Regexp, []⟩
          [⟨"http.method", some (.ofString "GET")⟩, ⟨"", some .empty⟩,
            ⟨"http.status_code", some (.ofInt 200)⟩]).2 ≠ none ∧
      (NewAttributesMatcher sampleCollaborators ⟨.Regexp, []⟩
          [⟨"http.method", some (.ofString "GET")⟩]).2 = none ∧
      NewAttributesMatcher sampleCollaborators ⟨.Regexp, []⟩
          [⟨"http.method", some (.ofString "GET")⟩, ⟨"", some .empty⟩,
            ⟨"http.status_code", some (.ofInt 200)⟩]
        = ([], some (Error.New "can't have empty key in the list of attributes")) :=
  ⟨⟨⟨"", some .empty⟩, by simp, rfl⟩,
    (C8_empty_key_is_rejected sampleCollaborators ⟨.Regexp, []⟩ _).1
      ⟨⟨"", some .empty⟩, by simp, rfl⟩,
    by decide,
    (C8_empty_key_is_rejected sampleCollaborators ⟨.Regexp, []⟩ _).2
      [⟨"http.method", some (.ofString "GET")⟩] ⟨"", some .empty⟩
      [⟨"http.status_code", some (.ofInt 200)⟩] rfl rfl
      (by
        intro earlier hmem
        rw [List.mem_singleton] at hmem
        rw [hmem]
        decide)⟩

/-- C9: for every configuration whose match type is Regexp, whatever its engine
options, and every list of specs holding, at position `index`, a spec with a
non-empty key and a present raw value that normalizes to a variant other than
String, `NewAttributesMatcher` returns an error and does not invoke the pattern
filter compiler for that spec. -/
theorem C9_regexp_rejects_non_string_value {Raw : Type} (ext : Collaborators Raw)
    (config : filterset.Config) (attributes : List (filterconfig.Attribute Raw))
    (index : Nat) (spec : filterconfig.Attribute Raw) (raw : Raw)
    (val : pdata.AttributeValue)
    (hregexp : config.MatchType = filterset.MatchType.Regexp)
    (hspec : attributes[index]? = some spec) (_hkey : spec.Key ≠ "")
    (hraw : spec.Value = some raw) (hval : ext.NewAttributeValueRaw raw = .ok val)
    (htype : val.Type ≠ AttributeValueType.AttributeValueTypeString) :
    (NewAttributesMatcher ext config attributes).2 ≠ none ∧
      ∀ patterns cfg,
        Call.CreateFilterSet index patterns cfg
          ∉ NewAttributesMatcher.calls ext config attributes := by
  have h := NewAttributesMatcher_loop_non_string ext config spec raw val hregexp hraw hval
    htype attributes index 0 [] [] hspec
  refine ⟨h.1, fun patterns cfg hmem => ?_⟩
  have h2 := h.2 patterns cfg
  rw [Nat.zero_add] at h2
  exact absurd (h2 hmem) (by simp)

/-- Witness of C9: under Regexp with an engine option set, a String spec
followed by the spec `http.status_code = Int(200)`. -/
theorem C9_regexp_rejects_non_string_value_witness :
    ([⟨"http.method", some (.ofString "GET")⟩, ⟨"http.status_code", some (.ofInt 200)⟩] :
        List (filterconfig.Attribute pdata.AttributeValue))[1]?
        = some ⟨"http.status_code", some (.ofInt 200)⟩ ∧
      "http.status_code" ≠ "" ∧
      sampleCollaborators.NewAttributeValueRaw (.ofInt 200) = .ok (.ofInt 200) ∧
      (AttributeValue.ofInt 200).Type ≠ AttributeValueType.AttributeValueTypeString ∧
      (NewAttributesMatcher sampleCollaborators ⟨.Regexp, [("cacheenabled", "true")]⟩
          [⟨"http.method", some (.ofString "GET")⟩,
            ⟨"http.status_code", some (.ofInt 200)⟩]).2 ≠ none ∧
      Call.CreateFilterSet 1 [""] ⟨.Regexp, [("cacheenabled", "true")]⟩
        ∉ NewAttributesMatcher.calls sampleCollaborators
            ⟨.Regexp, [("cacheenabled", "true")]⟩
            [⟨"http.method", some (.ofString "GET")⟩,
              ⟨"http.status_code", some (.ofInt 200)⟩] :=
  have h := C9_regexp_rejects_non_string_value sampleCollaborators
    ⟨.Regexp, [("cacheenabled", "true")]⟩
    [⟨"http.method", some (.ofString "GET")⟩, ⟨"http.status_code", some (.ofInt 200)⟩]
    1 ⟨"http.status_code", some (.ofInt 200)⟩ (.ofInt 200) (.ofInt 200)
    rfl rfl (by decide) rfl rfl (by decide)
  ⟨rfl, by decide, rfl, by decide, h.1, h.2 _ _⟩

/-- C10: whenever `NewAttributesMatcher` returns an error, the matcher it
returns is nil, not the entries compiled before the failing spec; and whenever
it returns no error, the matcher holds one entry for each spec, with the keys
of the specs in their order. -/
theorem C10_compilation_is_all_or_nothing {Raw : Type} (ext : Collaborators Raw)
    (config : filterset.Config) (attributes : List (filterconfig.Attribute Raw)) :
    ((NewAttributesMatcher ext config attributes).2 ≠ none →
        (NewAttributesMatcher ext config attributes).1 = []) ∧
      ((NewAttributesMatcher ext config attributes).2 = none →
        (NewAttributesMatcher ext config attributes).1.length = attributes.length ∧
          (NewAttributesMatcher ext config attributes).1.map (fun entry => entry.Key)
            = attributes.map (fun spec => spec.Key)) := by
  have hm := NewAttributesMatcher_loop_matcher ext config attributes 0 [] []
  have hk := NewAttributesMatcher_loop_keys ext config attributes 0 [] []
  refine ⟨hm.1, fun hnone => ⟨?_, ?_⟩⟩
  · have := hm.2 hnone
    simpa using this
  · have := hk hnone
    simpa using this

/-- Witness of C10: under Regexp, two specs of which the second fails on its
Int value, and two specs that both compile. -/
theorem C10_compilation_is_all_or_nothing_witness :
    ((NewAttributesMatcher sampleCollaborators ⟨.Regexp, []⟩
          [⟨"http.method", some (.ofString "GET")⟩,
            ⟨"http.status_code", some (.ofInt 200)⟩]).2 ≠ none ∧
        (NewAttributesMatcher sampleCollaborators ⟨.Regexp, []⟩
          [⟨"http.method", some (.ofString "GET")⟩,
            ⟨"http.status_code", some (.ofInt 200)⟩]).1 = []) ∧
      ((NewAttributesMatcher sampleCollaborators ⟨.Regexp, []⟩
          [⟨"http.method", some (.ofString "GET")⟩, ⟨"error", none⟩]).2 = none ∧
        (NewAttributesMatcher sampleCollaborators ⟨.Regexp, []⟩
          [⟨"http.method", some (.ofString "GET")⟩, ⟨"error", none⟩]).1.length = 2) :=
  ⟨⟨by decide,
      (C10_compilation_is_all_or_nothing sampleCollaborators ⟨.Regexp, []⟩
        [⟨"http.method", some (.ofString "GET")⟩,
          ⟨"http.status_code", some (.ofInt 200)⟩]).1 (by decide)⟩,
    ⟨by decide,
      ((C10_compilation_is_all_or_nothing sampleCollaborators ⟨.Regexp, []⟩
        [⟨"http.method", some (.ofString "GET")⟩, ⟨"error", none⟩]).2 (by decide)).1⟩⟩

/-! ### Evaluation as a conjunction -/

/-- The per-property test reads the attribute map only under the key of the
property. -/
theorem check_congr (FormatFloat : Float64 → String) (property : AttributeMatcher)
    (a1 a2 : pdata.AttributeMap) (h : a1.Get property.Key = a2.Get property.Key) :
    property.check FormatFloat a1 = property.check FormatFloat a2 := by
  unfold AttributeMatcher.check
  rw [h]

/-- Two lists with the same members give the same conjunction. -/
theorem all_eq_of_mem_iff {α : Type} (f : α → Bool) (l1 l2 : List α)
    (h : ∀ a, a ∈ l1 ↔ a ∈ l2) : l1.all f = l2.all f := by
  rw [Bool.eq_iff_iff, List.all_eq_true, List.all_eq_true]
  constructor
  · intro h1 a ha
    exact h1 a ((h a).2 ha)
  · intro h2 a ha
    exact h2 a ((h a).1 ha)

/-- Two tests that agree on the members of a list give the same conjunction. -/
theorem all_eq_of_agree {α : Type} (f g : α → Bool) (l : List α)
    (h : ∀ a ∈ l, f a = g a) : l.all f = l.all g := by
  induction l with
  | nil => rfl
  | cons a rest ih =>
    rw [List.all_cons, List.all_cons, h a (List.mem_cons_self a rest),
      ih (fun b hb => h b (List.mem_cons_of_mem a hb))]

/-- C14: for every attribute map and every list of criteria with a
distinguished position `i`: if every criterion other than the `i`-th passes,
`Match` is true exactly when the `i`-th criterion passes, so that replacing it
by a failing criterion gives false; and if some criterion other than the `i`-th
fails, `Match` is false whatever criterion stands at position `i`. -/
theorem C14_one_criterion_decides (FormatFloat : Float64 → String)
    (criteria : List Criterion) (i : Nat) (c : Criterion) (attrs : pdata.AttributeMap)
    (hi : criteria[i]? = some c) :
    ((∀ j d, j ≠ i → criteria[j]? = some d → d.passes FormatFloat attrs) →
        ((AttributesMatcher.Match FormatFloat (criteria.map Criterion.toMatcher) attrs = true
            ↔ c.passes FormatFloat attrs) ∧
          ∀ failing : Criterion, ¬ failing.passes FormatFloat attrs →
            AttributesMatcher.Match FormatFloat
              ((criteria.set i failing).map Criterion.toMatcher) attrs = false)) ∧
      ((∃ j d, j ≠ i ∧ criteria[j]? = some d ∧ ¬ d.passes FormatFloat attrs) →
        ∀ any : Criterion,
          AttributesMatcher.Match FormatFloat
            ((criteria.set i any).map Criterion.toMatcher) attrs = false) := by
  have hlt : i < criteria.length := by
    rcases List.getElem?_eq_some_iff.1 hi with ⟨h, -⟩
    exact h
  constructor
  · intro hothers
    constructor
    · rw [Match_map_toMatcher_iff]
      constructor
      · intro hall
        exact hall c (List.mem_iff_getElem?.2 ⟨i, hi⟩)
      · intro hc d hd
        obtain ⟨j, hj⟩ := List.mem_iff_getElem?.1 hd
        by_cases hji : j = i
        · rw [hji, hi] at hj
          cases hj
          exact hc
        · exact hothers j d hji hj
    · intro failing hfail
      rw [← Bool.not_eq_true, Match_map_toMatcher_iff]
      intro hall
      apply hfail
      apply hall
      apply List.mem_iff_getElem?.2
      exact ⟨i, by simp [List.getElem?_set, hlt]⟩
  · rintro ⟨j, d, hji, hj, hd⟩ any
    rw [← Bool.not_eq_true, Match_map_toMatcher_iff]
    intro hall
    apply hd
    apply hall
    apply List.mem_iff_getElem?.2
    refine ⟨j, ?_⟩
    rw [List.getElem?_set_ne (Ne.symm hji)]
    exact hj

/-- Witness of C14: a key-only criterion that passes and, at position 1, an
exact-value criterion that passes. -/
theorem C14_one_criterion_decides_witness :
    ([⟨"error", .KeyOnly⟩, ⟨"http.status_code", .ExactValue (.ofInt 200)⟩] :
        List Criterion)[1]? = some ⟨"http.status_code", .ExactValue (.ofInt 200)⟩ ∧
      AttributesMatcher.Match sampleFormatFloat
        (([⟨"error", .KeyOnly⟩, ⟨"http.status_code", .ExactValue (.ofInt 200)⟩] :
          List Criterion).map Criterion.toMatcher)
        ⟨[("error", .ofBool true), ("http.status_code", .ofInt 200)]⟩ = true :=
  ⟨rfl,
    (((C14_one_criterion_decides sampleFormatFloat
        [⟨"error", .KeyOnly⟩, ⟨"http.status_code", .ExactValue (.ofInt 200)⟩] 1
        ⟨"http.status_code", .ExactValue (.ofInt 200)⟩
        ⟨[("error", .ofBool true), ("http.status_code", .ofInt 200)]⟩ rfl).1
      (by
        intro j d hj hd
        match j, hj, hd with
        | 0, _, hd =>
          simp only [List.getElem?_cons_zero, Option.some.injEq] at hd
          rw [← hd]
          exact ⟨.ofBool true, rfl, trivial⟩
        | 1, hj, _ => exact absurd rfl hj
        | j + 2, _, hd => simp at hd)).1).2
      ⟨.ofInt 200, rfl, rfl⟩⟩

/-- C15: the result of `Match` does not depend on the order of the criteria:
two lists of criteria that are permutations of each other give the same
result on every attribute map. -/
theorem C15_Match_order_irrelevant (FormatFloat : Float64 → String)
    (ma ma2 : AttributesMatcher) (attrs : pdata.AttributeMap) (hperm : List.Perm ma ma2) :
    AttributesMatcher.Match FormatFloat ma attrs
      = AttributesMatcher.Match FormatFloat ma2 attrs := by
  rw [Match_eq_all, Match_eq_all]
  exact all_eq_of_mem_iff _ ma ma2 (fun a => hperm.mem_iff)

/-- Witness of C15: a failing exact-value criterion in front of, or behind, a
passing key-only criterion. -/
theorem C15_Match_order_irrelevant_witness :
    List.Perm
        ([⟨"http.status_code", some (.ofInt 200), none⟩, ⟨"error", none, none⟩] :
          AttributesMatcher)
        [⟨"error", none, none⟩, ⟨"http.status_code", some (.ofInt 200), none⟩] ∧
      AttributesMatcher.Match sampleFormatFloat
          [⟨"http.status_code", some (.ofInt 200), none⟩, ⟨"error", none, none⟩]
          ⟨[("error", .ofBool true), ("http.status_code", .ofInt 404)]⟩
        = AttributesMatcher.Match sampleFormatFloat
          [⟨"error", none, none⟩, ⟨"http.status_code", some (.ofInt 200), none⟩]
          ⟨[("error", .ofBool true), ("http.status_code", .ofInt 404)]⟩ :=
  ⟨List.Perm.swap _ _ _,
    C15_Match_order_irrelevant sampleFormatFloat _ _ _ (List.Perm.swap _ _ _)⟩

/-- C19: `Match` depends on the attribute map only through the entries stored
under the keys of the criteria: two attribute maps, of any sizes, in which
`Get` gives the same presence and the same value for the key of every
criterion, give the same result. -/
theorem C19_Match_reads_only_criteria_keys (FormatFloat : Float64 → String)
    (ma : AttributesMatcher) (a1 a2 : pdata.AttributeMap)
    (hsame : ∀ property ∈ ma, a1.Get property.Key = a2.Get property.Key) :
    AttributesMatcher.Match FormatFloat ma a1 = AttributesMatcher.Match FormatFloat ma a2 := by
  rw [Match_eq_all, Match_eq_all]
  apply all_eq_of_agree
  intro property hmem
  exact check_congr FormatFloat property a1 a2 (hsame property hmem)

/-- Witness of C19: the map without entries and a map that holds only another
key. -/
theorem C19_Match_reads_only_criteria_keys_witness :
    (AttributeMap.mk []).Get "error" = (AttributeMap.mk [("http.method", .ofString "GET")]).Get
        "error" ∧
      AttributesMatcher.Match sampleFormatFloat [⟨"error", none, none⟩] ⟨[]⟩
        = AttributesMatcher.Match sampleFormatFloat [⟨"error", none, none⟩]
            ⟨[("http.method", .ofString "GET")]⟩ :=
  ⟨rfl,
    C19_Match_reads_only_criteria_keys sampleFormatFloat [⟨"error", none, none⟩] ⟨[]⟩
      ⟨[("http.method", .ofString "GET")]⟩
      (by
        intro property hmem
        rw [List.mem_singleton] at hmem
        rw [hmem]
        rfl)⟩

/-- C20: `Match` is monotone under extension of the attribute map: when every
key present in `a1` is present in `a2` with the same value and `Match` is true
on `a1`, it is true on `a2`. -/
theorem C20_Match_monotone (FormatFloat : Float64 → String) (ma : AttributesMatcher)
    (a1 a2 : pdata.AttributeMap)
    (hext : ∀ k v, a1.Get k = some v → a2.Get k = some v)
    (hmatch : AttributesMatcher.Match FormatFloat ma a1 = true) :
    AttributesMatcher.Match FormatFloat ma a2 = true := by
  rw [Match_eq_all, List.all_eq_true] at hmatch ⊢
  intro property hmem
  have h1 := hmatch property hmem
  cases hget : a1.Get property.Key with
  | none => simp [AttributeMatcher.check, hget] at h1
  | some attr =>
    rw [← h1]
    exact (check_congr FormatFloat property a1 a2 (by rw [hget, hext _ _ hget])).symm

/-- Witness of C20: a record that matches, then the same record with one more
attribute in front. -/
theorem C20_Match_monotone_witness :
    AttributesMatcher.Match sampleFormatFloat [⟨"http.status_code", some (.ofInt 200), none⟩]
        ⟨[("http.status_code", .ofInt 200)]⟩ = true ∧
      AttributesMatcher.Match sampleFormatFloat [⟨"http.status_code", some (.ofInt 200), none⟩]
        ⟨[("error", .ofBool true), ("http.status_code", .ofInt 200)]⟩ = true :=
  ⟨by decide,
    C20_Match_monotone sampleFormatFloat [⟨"http.status_code", some (.ofInt 200), none⟩]
      ⟨[("http.status_code", .ofInt 200)]⟩
      ⟨[("error", .ofBool true), ("http.status_code", .ofInt 200)]⟩
      (by
        intro k v hget
        simp only [AttributeMap.Get, lookup] at hget ⊢
        by_cases hk : "http.status_code" = k
        · simp only [hk, if_true] at hget ⊢
          have hne : ¬ "error" = k := by
            rw [← hk]
            decide
          simp only [hne, if_false]
          exact hget
        · simp [hk] at hget)
      (by decide)⟩

/-! ### Compilation, spec by spec -/

/-- Two lists related item by item are related at every position. -/
theorem forall₂_getElem? {α β : Type} {R : α → β → Prop} {l1 : List α} {l2 : List β}
    (h : List.Forall₂ R l1 l2) :
    ∀ (i : Nat) (a : α) (b : β), l1[i]? = some a → l2[i]? = some b → R a b := by
  induction h with
  | nil =>
    intro i a b ha
    simp at ha
  | cons hab _ ih =>
    intro i a b ha hb
    cases i with
    | zero =>
      simp only [List.getElem?_cons_zero, Option.some.injEq] at ha hb
      rw [← ha, ← hb]
      exact hab
    | succ i =>
      simp only [List.getElem?_cons_succ] at ha hb
      exact ih i a b ha hb

/-- A turn of the loop appends an entry exactly when the key is not empty and
either there is no value, giving a key-only entry, or the value normalizes and
then, under Regexp, is a String whose pattern compiles, giving a pattern entry,
and otherwise gives an exact-value entry. -/
theorem NewAttributesMatcher_body_ok_iff {Raw : Type} (ext : Collaborators Raw)
    (config : filterset.Config) (index : Nat) (spec : filterconfig.Attribute Raw)
    (entry : AttributeMatcher) :
    (NewAttributesMatcher.body ext config index spec).1 = .ok entry ↔
      spec.Key ≠ "" ∧
        ((spec.Value = none ∧ entry = ⟨spec.Key, none, none⟩) ∨
          ∃ raw val, spec.Value = some raw ∧ ext.NewAttributeValueRaw raw = .ok val ∧
            ((config.MatchType = filterset.MatchType.Regexp ∧
                val.Type = AttributeValueType.AttributeValueTypeString ∧
                ∃ filter, ext.CreateFilterSet [val.StringVal] config = .ok filter ∧
                  entry = ⟨spec.Key, none, some filter⟩) ∨
              (config.MatchType ≠ filterset.MatchType.Regexp ∧
                entry = ⟨spec.Key, some val, none⟩))) := by
  unfold NewAttributesMatcher.body
  by_cases hkey : spec.Key = ""
  · simp [hkey]
  · simp only [hkey, if_false, ne_eq, not_false_eq_true, true_and]
    cases hv : spec.Value with
    | none => simp [eq_comm]
    | some value =>
      simp only [Option.some.injEq, false_and, false_or, exists_and_left, exists_eq_left',
        reduceCtorEq]
      cases hn : ext.NewAttributeValueRaw value with
      | error err => simp
      | ok val =>
        simp only [Except.ok.injEq, exists_eq_left']
        by_cases hre : config.MatchType = filterset.MatchType.Regexp
        · simp only [hre, if_true, true_and, not_true_eq_false, false_and, or_false]
          by_cases hty : val.Type = AttributeValueType.AttributeValueTypeString
          · simp only [hty, ne_eq, not_true_eq_false, if_false, true_and]
            cases hc : ext.CreateFilterSet [val.StringVal] config with
            | error err => simp
            | ok filter => simp [eq_comm]
          · simp [hty]
        · simp [hre, eq_comm]

/-- A turn of the loop fails with `err` exactly when the key is empty and `err`
is the empty-key error, or the key is not empty and the value is present and
either the normalizer fails with `err` or, under Regexp, the value is not a
String and `err` is the unsupported-type error, or the pattern compiler fails
with `err`. -/
theorem NewAttributesMatcher_body_error_iff {Raw : Type} (ext : Collaborators Raw)
    (config : filterset.Config) (index : Nat) (spec : filterconfig.Attribute Raw)
    (err : Error) :
    (NewAttributesMatcher.body ext config index spec).1 = .error err ↔
      (spec.Key = "" ∧ err = Error.New "can't have empty key in the list of attributes") ∨
        (spec.Key ≠ "" ∧ ∃ raw, spec.Value = some raw ∧
          (ext.NewAttributeValueRaw raw = .error err ∨
            ∃ val, ext.NewAttributeValueRaw raw = .ok val ∧
              config.MatchType = filterset.MatchType.Regexp ∧
              ((val.Type ≠ AttributeValueType.AttributeValueTypeString ∧
                  err = Error.Errorf "%s=%s for %q only supports STRING, but found %s"
                    spec.Key val.Type.String) ∨
                (val.Type = AttributeValueType.AttributeValueTypeString ∧
                  ext.CreateFilterSet [val.StringVal] config = .error err)))) := by
  unfold NewAttributesMatcher.body
  by_cases hkey : spec.Key = ""
  · simp [hkey, eq_comm]
  · simp only [hkey, if_false, ne_eq, not_false_eq_true, true_and, false_and, false_or]
    cases hv : spec.Value with
    | none => simp
    | some value =>
      simp only [Option.some.injEq, exists_eq_left']
      cases hn : ext.NewAttributeValueRaw value with
      | error e => simp
      | ok val =>
        simp only [Except.ok.injEq, exists_eq_left', reduceCtorEq, false_or]
        by_cases hre : config.MatchType = filterset.MatchType.Regexp
        · simp only [hre, if_true, true_and]
          by_cases hty : val.Type = AttributeValueType.AttributeValueTypeString
          · simp only [hty, ne_eq, not_true_eq_false, if_false, false_and, false_or, true_and]
            cases hc : ext.CreateFilterSet [val.StringVal] config with
            | error e => simp
            | ok filter => simp
          · simp [hty, eq_comm]
        · simp [hre]

/-- Without an error the loop returns the entries it started from followed by
the entries of the turns, one for each spec and in their order. -/
theorem NewAttributesMatcher_loop_entries {Raw : Type} (ext : Collaborators Raw)
    (config : filterset.Config) :
    ∀ (specs : List (filterconfig.Attribute Raw)) (index : Nat)
      (rawAttributes : AttributesMatcher) (calls : List (Call Raw)),
      (NewAttributesMatcher.loop ext config specs index rawAttributes calls).1.2 = none →
        ∃ entries,
          (NewAttributesMatcher.loop ext config specs index rawAttributes calls).1.1
              = rawAttributes ++ entries ∧
            List.Forall₂
              (fun spec entry => (NewAttributesMatcher.body ext config 0 spec).1 = .ok entry)
              specs entries := by
  intro specs
  induction specs with
  | nil =>
    intro index rawAttributes calls _
    exact ⟨[], by simp [NewAttributesMatcher.loop], List.Forall₂.nil⟩
  | cons spec rest ih =>
    intro index rawAttributes calls
    rw [NewAttributesMatcher_loop_cons]
    have hfst := NewAttributesMatcher_body_fst ext config index 0 spec
    rcases hb : NewAttributesMatcher.body ext config index spec with ⟨res, made⟩
    rw [hb] at hfst
    cases res with
    | error err => simp
    | ok entry =>
      simp only
      intro hnone
      obtain ⟨entries, heq, hrel⟩ :=
        ih (index + 1) (rawAttributes ++ [entry]) (calls ++ made) hnone
      refine ⟨entry :: entries, ?_, List.Forall₂.cons hfst.symm hrel⟩
      rw [heq]
      simp

/-- The loop returns no error exactly when every spec compiles alone. -/
theorem NewAttributesMatcher_loop_ok_iff {Raw : Type} (ext : Collaborators Raw)
    (config : filterset.Config) :
    ∀ (specs : List (filterconfig.Attribute Raw)) (index : Nat)
      (rawAttributes : AttributesMatcher) (calls : List (Call Raw)),
      (NewAttributesMatcher.loop ext config specs index rawAttributes calls).1.2 = none ↔
        ∀ spec ∈ specs, (NewAttributesMatcher ext config [spec]).2 = none := by
  intro specs
  induction specs with
  | nil =>
    intro index rawAttributes calls
    simp [NewAttributesMatcher.loop]
  | cons spec rest ih =>
    intro index rawAttributes calls
    rw [NewAttributesMatcher_loop_cons, List.forall_mem_cons,
      NewAttributesMatcher_singleton ext config index]
    rcases hb : NewAttributesMatcher.body ext config index spec with ⟨res, made⟩
    cases res with
    | error err => simp
    | ok entry =>
      simp only [true_and]
      exact ih (index + 1) (rawAttributes ++ [entry]) (calls ++ made)

/-- An error the loop returns is the error of the turn of one of the specs. -/
theorem NewAttributesMatcher_loop_error_origin {Raw : Type} (ext : Collaborators Raw)
    (config : filterset.Config) (err : Error) :
    ∀ (specs : List (filterconfig.Attribute Raw)) (index : Nat)
      (rawAttributes : AttributesMatcher) (calls : List (Call Raw)),
      (NewAttributesMatcher.loop ext config specs index rawAttributes calls).1.2 = some err →
        ∃ spec ∈ specs, (NewAttributesMatcher.body ext config 0 spec).1 = .error err := by
  intro specs
  induction specs with
  | nil =>
    intro index rawAttributes calls h
    simp [NewAttributesMatcher.loop] at h
  | cons spec rest ih =>
    intro index rawAttributes calls
    rw [NewAttributesMatcher_loop_cons]
    have hfst := NewAttributesMatcher_body_fst ext config index 0 spec
    rcases hb : NewAttributesMatcher.body ext config index spec with ⟨res, made⟩
    rw [hb] at hfst
    cases res with
    | error e =>
      simp only [Option.some.injEq]
      intro h
      rw [h] at hfst
      exact ⟨spec, List.mem_cons_self _ _, hfst.symm⟩
    | ok entry =>
      simp only
      intro h
      obtain ⟨bad, hmem, hbad⟩ := ih (index + 1) (rawAttributes ++ [entry]) (calls ++ made) h
      exact ⟨bad, List.mem_cons_of_mem _ hmem, hbad⟩

/-- Every collaborator invocation of the loop was made before it started or is
an invocation made by the turn of one of the specs. -/
theorem NewAttributesMatcher_loop_calls {Raw : Type} (ext : Collaborators Raw)
    (config : filterset.Config) :
    ∀ (specs : List (filterconfig.Attribute Raw)) (index : Nat)
      (rawAttributes : AttributesMatcher) (calls : List (Call Raw)),
      ∀ c ∈ (NewAttributesMatcher.loop ext config specs index rawAttributes calls).2,
        c ∈ calls ∨
          ∃ j spec, specs[j]? = some spec ∧
            c ∈ (NewAttributesMatcher.body ext config (index + j) spec).2 := by
  intro specs
  induction specs with
  | nil =>
    intro index rawAttributes calls c hc
    simp only [NewAttributesMatcher.loop] at hc
    exact Or.inl hc
  | cons spec rest ih =>
    intro index rawAttributes calls c
    rw [NewAttributesMatcher_loop_cons]
    rcases hb : NewAttributesMatcher.body ext config index spec with ⟨res, made⟩
    have hhead : c ∈ calls ++ made → c ∈ calls ∨
        ∃ j s, (spec :: rest)[j]? = some s ∧
          c ∈ (NewAttributesMatcher.body ext config (index + j) s).2 := by
      intro hc
      rcases List.mem_append.1 hc with h1 | h1
      · exact Or.inl h1
      · exact Or.inr ⟨0, spec, by simp, by rw [Nat.add_zero, hb]; exact h1⟩
    cases res with
    | error err => exact hhead
    | ok entry =>
      simp only
      intro hc
      rcases ih (index + 1) (rawAttributes ++ [entry]) (calls ++ made) c hc with h1 | h1
      · exact hhead h1
      · obtain ⟨j, s, hj, hs⟩ := h1
        refine Or.inr ⟨j + 1, s, by simpa using hj, ?_⟩
        have hadd : index + (j + 1) = index + 1 + j := by omega
        rw [hadd]
        exact hs

/-- Without an error the entries of the matcher are the entries of the turns of
the specs, position by position. -/
theorem NewAttributesMatcher_entries {Raw : Type} (ext : Collaborators Raw)
    (config : filterset.Config) (attributes : List (filterconfig.Attribute Raw))
    (hok : (NewAttributesMatcher ext config attributes).2 = none) :
    List.Forall₂
      (fun spec entry => (NewAttributesMatcher.body ext config 0 spec).1 = .ok entry)
      attributes (NewAttributesMatcher ext config attributes).1 := by
  obtain ⟨entries, heq, hrel⟩ := NewAttributesMatcher_loop_entries ext config attributes 0 [] [] hok
  have : (NewAttributesMatcher ext config attributes).1 = entries := by
    unfold NewAttributesMatcher NewAttributesMatcher.run
    rw [heq]
    rfl
  rw [this]
  exact hrel

/-- A spec compiles alone exactly when its turn of the loop appends an entry. -/
theorem NewAttributesMatcher_single_ok_iff {Raw : Type} (ext : Collaborators Raw)
    (config : filterset.Config) (spec : filterconfig.Attribute Raw) :
    (NewAttributesMatcher ext config [spec]).2 = none ↔
      ∃ entry, (NewAttributesMatcher.body ext config 0 spec).1 = .ok entry := by
  rw [NewAttributesMatcher_singleton ext config 0]
  cases (NewAttributesMatcher.body ext config 0 spec).1 with
  | error err => simp
  | ok entry => simp

/-- A spec compiled alone fails with `err` exactly when its turn of the loop
fails with `err`. -/
theorem NewAttributesMatcher_single_error_iff {Raw : Type} (ext : Collaborators Raw)
    (config : filterset.Config) (spec : filterconfig.Attribute Raw) (err : Error) :
    (NewAttributesMatcher ext config [spec]).2 = some err ↔
      (NewAttributesMatcher.body ext config 0 spec).1 = .error err := by
  rw [NewAttributesMatcher_singleton ext config 0]
  cases (NewAttributesMatcher.body ext config 0 spec).1 with
  | error e => simp
  | ok entry => simp

/-- C11: whenever `NewAttributesMatcher` succeeds, the matcher has exactly as
many criteria as there are specs and, at every position, the key of the
criterion is the key of the spec at that position. -/
theorem C11_keys_mirror_specs {Raw : Type} (ext : Collaborators Raw)
    (config : filterset.Config) (attributes : List (filterconfig.Attribute Raw))
    (hok : (NewAttributesMatcher ext config attributes).2 = none) :
    (NewAttributesMatcher ext config attributes).1.length = attributes.length ∧
      ∀ (i : Nat) (spec : filterconfig.Attribute Raw), attributes[i]? = some spec →
        ∃ entry, (NewAttributesMatcher ext config attributes).1[i]? = some entry ∧
          entry.Key = spec.Key := by
  have hrel := NewAttributesMatcher_entries ext config attributes hok
  have hlen := hrel.length_eq
  refine ⟨hlen.symm, ?_⟩
  intro i spec hspec
  have hlt : i < attributes.length := (List.getElem?_eq_some_iff.1 hspec).1
  have hlt2 : i < (NewAttributesMatcher ext config attributes).1.length := by omega
  refine ⟨(NewAttributesMatcher ext config attributes).1[i], List.getElem?_eq_getElem hlt2, ?_⟩
  exact NewAttributesMatcher_body_key ext config 0 spec _
    (forall₂_getElem? hrel i spec _ hspec (List.getElem?_eq_getElem hlt2))

/-- Witness of C11: under Strict, three specs of which two share a key. -/
theorem C11_keys_mirror_specs_witness :
    (NewAttributesMatcher sampleCollaborators ⟨.Strict, []⟩
        [⟨"b", some (.ofInt 1)⟩, ⟨"a", none⟩, ⟨"b", some (.ofBool true)⟩]).2 = none ∧
      (NewAttributesMatcher sampleCollaborators ⟨.Strict, []⟩
        [⟨"b", some (.ofInt 1)⟩, ⟨"a", none⟩, ⟨"b", some (.ofBool true)⟩]).1.length = 3 :=
  ⟨by decide,
    (C11_keys_mirror_specs sampleCollaborators ⟨.Strict, []⟩
      [⟨"b", some (.ofInt 1)⟩, ⟨"a", none⟩, ⟨"b", some (.ofBool true)⟩] (by decide)).1⟩

/-- C12: whenever `NewAttributesMatcher` succeeds, the criterion at each
position is decided by the presence of the raw value of the spec at that
position and by the match type. No raw value gives key-only (both pointers
nil) under every match type; a raw value under Regexp gives a pattern
criterion, whose filter is the one built from the single pattern equal to the
normalized string, with no exact value; a raw value under another match type
gives an exact-value criterion holding the normalized value, with no filter.
No criterion has both an exact value and a filter, and a pattern criterion
exists only for a raw value that normalized to a String. -/
theorem C12_mode_decided_at_compile_time {Raw : Type} (ext : Collaborators Raw)
    (config : filterset.Config) (attributes : List (filterconfig.Attribute Raw))
    (hok : (NewAttributesMatcher ext config attributes).2 = none) :
    ∀ (i : Nat) (spec : filterconfig.Attribute Raw) (entry : AttributeMatcher),
      attributes[i]? = some spec →
      (NewAttributesMatcher ext config attributes).1[i]? = some entry →
        (spec.Value = none → entry.AttributeValue = none ∧ entry.StringFilter = none) ∧
        (∀ raw, spec.Value = some raw → config.MatchType = filterset.MatchType.Regexp →
            ∃ s filter, ext.NewAttributeValueRaw raw = .ok (.ofString s) ∧
              ext.CreateFilterSet [s] config = .ok filter ∧
              entry.StringFilter = some filter ∧ entry.AttributeValue = none) ∧
        (∀ raw, spec.Value = some raw → config.MatchType ≠ filterset.MatchType.Regexp →
            ∃ val, ext.NewAttributeValueRaw raw = .ok val ∧
              entry.AttributeValue = some val ∧ entry.StringFilter = none) ∧
        ¬ (entry.AttributeValue.isSome = true ∧ entry.StringFilter.isSome = true) ∧
        (entry.StringFilter.isSome = true →
            ∃ raw s, spec.Value = some raw ∧
              ext.NewAttributeValueRaw raw = .ok (.ofString s)) := by
  intro i spec entry hspec hentry
  have hrel := forall₂_getElem? (NewAttributesMatcher_entries ext config attributes hok)
    i spec entry hspec hentry
  rcases (NewAttributesMatcher_body_ok_iff ext config 0 spec entry).1 hrel with
    ⟨-, ⟨hv, he⟩ | ⟨raw, val, hv, hn, ⟨hre, hty, filter, hc, he⟩ | ⟨hre, he⟩⟩⟩
  · subst he
    simp [hv]
  · subst he
    cases val with
    | ofString s =>
      simp only [AttributeValue.StringVal] at hc
      refine ⟨by simp [hv], ?_, by simp [hre], by simp, ?_⟩
      · intro raw2 hv2 _
        rw [hv] at hv2
        cases hv2
        exact ⟨s, filter, hn, hc, rfl, rfl⟩
      · intro _
        exact ⟨raw, s, hv, hn⟩
    | _ => simp [AttributeValue.Type] at hty
  · subst he
    refine ⟨by simp [hv], fun _ _ h => absurd h hre, ?_, by simp, by simp⟩
    intro raw2 hv2 _
    rw [hv] at hv2
    cases hv2
    exact ⟨val, hn, rfl, rfl⟩

/-- Witness of C12: under Regexp, a spec with the String value `GET` and a
spec without value. -/
theorem C12_mode_decided_at_compile_time_witness :
    (NewAttributesMatcher sampleCollaborators ⟨.Regexp, []⟩
        [⟨"http.method", some (.ofString "GET")⟩, ⟨"error", none⟩]).2 = none ∧
      ∃ s filter,
        sampleCollaborators.NewAttributeValueRaw (.ofString "GET") = .ok (.ofString s) ∧
          sampleCollaborators.CreateFilterSet [s] ⟨.Regexp, []⟩ = .ok filter := by
  refine ⟨by decide, ?_⟩
  obtain ⟨s, filter, h1, h2, -, -⟩ :=
    (C12_mode_decided_at_compile_time sampleCollaborators ⟨.Regexp, []⟩
      [⟨"http.method", some (.ofString "GET")⟩, ⟨"error", none⟩] (by decide) 0
      ⟨"http.method", some (.ofString "GET")⟩
      ⟨"http.method", none,
        some ⟨fun s => ["GET"].any (fun pattern => pattern.isPrefixOf s)⟩⟩ rfl rfl).2.1
      (.ofString "GET") rfl rfl
  exact ⟨s, filter, h1, h2⟩

/-- Outside Regexp a turn of the loop invokes the value normalizer only. -/
theorem NewAttributesMatcher_body_calls_non_regexp {Raw : Type} (ext : Collaborators Raw)
    (config : filterset.Config) (index : Nat) (spec : filterconfig.Attribute Raw)
    (hmt : config.MatchType ≠ filterset.MatchType.Regexp) :
    ∀ c ∈ (NewAttributesMatcher.body ext config index spec).2,
      ∃ raw, c = Call.NewAttributeValueRaw index raw := by
  unfold NewAttributesMatcher.body
  by_cases hkey : spec.Key = ""
  · simp [hkey]
  · simp only [hkey, if_false]
    cases spec.Value with
    | none => simp
    | some value =>
      simp only
      cases ext.NewAttributeValueRaw value with
      | error err => simp
      | ok val => simp [hmt]

/-- C13: for every configuration whose match type is not Regexp,
`NewAttributesMatcher` succeeds if and only if every spec has a non-empty key
and every present raw value is accepted by the value normalizer; an error it
returns is the empty-key error of a spec with an empty key or the error of the
normalizer on a raw value, so no value is rejected for its type; the pattern
filter compiler is never invoked; and on success every present value, of any
variant, has become an exact-value criterion. -/
theorem C13_non_regexp_compiles_exact_values {Raw : Type} (ext : Collaborators Raw)
    (config : filterset.Config) (attributes : List (filterconfig.Attribute Raw))
    (hmt : config.MatchType ≠ filterset.MatchType.Regexp) :
    ((NewAttributesMatcher ext config attributes).2 = none ↔
        ∀ spec ∈ attributes, spec.Key ≠ "" ∧
          ∀ raw, spec.Value = some raw → ∃ val, ext.NewAttributeValueRaw raw = .ok val) ∧
      (∀ err, (NewAttributesMatcher ext config attributes).2 = some err →
        ∃ spec ∈ attributes,
          (spec.Key = "" ∧ err = Error.New "can't have empty key in the list of attributes") ∨
            ∃ raw, spec.Value = some raw ∧ ext.NewAttributeValueRaw raw = .error err) ∧
      (∀ c ∈ NewAttributesMatcher.calls ext config attributes,
        ∀ index patterns cfg, c ≠ Call.CreateFilterSet index patterns cfg) ∧
      ((NewAttributesMatcher ext config attributes).2 = none →
        ∀ (i : Nat) (spec : filterconfig.Attribute Raw) (raw : Raw) (entry : AttributeMatcher),
          attributes[i]? = some spec → spec.Value = some raw →
          (NewAttributesMatcher ext config attributes).1[i]? = some entry →
            ∃ val, ext.NewAttributeValueRaw raw = .ok val ∧
              entry = ⟨spec.Key, some val, none⟩) := by
  refine ⟨?_, ?_, ?_, ?_⟩
  · have h := NewAttributesMatcher_loop_ok_iff ext config attributes 0 [] []
    unfold NewAttributesMatcher NewAttributesMatcher.run
    rw [h]
    apply forall_congr'
    intro spec
    apply imp_congr_right
    intro _
    rw [NewAttributesMatcher_single_ok_iff]
    constructor
    · rintro ⟨entry, hentry⟩
      rcases (NewAttributesMatcher_body_ok_iff ext config 0 spec entry).1 hentry with
        ⟨hkey, ⟨hv, -⟩ | ⟨raw, val, hv, hn, -⟩⟩
      · exact ⟨hkey, fun raw h => by rw [hv] at h; cases h⟩
      · refine ⟨hkey, fun raw2 h => ?_⟩
        rw [hv] at h
        cases h
        exact ⟨val, hn⟩
    · rintro ⟨hkey, hval⟩
      cases hv : spec.Value with
      | none =>
        exact ⟨⟨spec.Key, none, none⟩,
          (NewAttributesMatcher_body_ok_iff ext config 0 spec _).2 ⟨hkey, Or.inl ⟨hv, rfl⟩⟩⟩
      | some raw =>
        obtain ⟨val, hn⟩ := hval raw hv
        exact ⟨⟨spec.Key, some val, none⟩,
          (NewAttributesMatcher_body_ok_iff ext config 0 spec _).2
            ⟨hkey, Or.inr ⟨raw, val, hv, hn, Or.inr ⟨hmt, rfl⟩⟩⟩⟩
  · intro err herr
    obtain ⟨spec, hmem, hbody⟩ :=
      NewAttributesMatcher_loop_error_origin ext config err attributes 0 [] [] herr
    refine ⟨spec, hmem, ?_⟩
    rcases (NewAttributesMatcher_body_error_iff ext config 0 spec err).1 hbody with
      h | ⟨-, raw, hv, hn | ⟨val, -, hre, -⟩⟩
    · exact Or.inl h
    · exact Or.inr ⟨raw, hv, hn⟩
    · exact absurd hre hmt
  · intro c hc index patterns cfg heq
    rcases NewAttributesMatcher_loop_calls ext config attributes 0 [] [] c hc with h | h
    · simp at h
    · obtain ⟨j, spec, -, hmem⟩ := h
      obtain ⟨raw, hraw⟩ :=
        NewAttributesMatcher_body_calls_non_regexp ext config (0 + j) spec hmt c hmem
      rw [hraw] at heq
      cases heq
  · intro hok i spec raw entry hspec hv hentry
    have hrel := forall₂_getElem? (NewAttributesMatcher_entries ext config attributes hok)
      i spec entry hspec hentry
    rcases (NewAttributesMatcher_body_ok_iff ext config 0 spec entry).1 hrel with
      ⟨-, ⟨hv2, -⟩ | ⟨raw2, val, hv2, hn, ⟨hre, -⟩ | ⟨-, he⟩⟩⟩
    · rw [hv] at hv2
      cases hv2
    · exact absurd hre hmt
    · rw [hv] at hv2
      cases hv2
      exact ⟨val, hn, he⟩

/-- Witness of C13: under Strict, an Int value and a Bool value. -/
theorem C13_non_regexp_compiles_exact_values_witness :
    filterset.MatchType.Strict ≠ filterset.MatchType.Regexp ∧
      (NewAttributesMatcher sampleCollaborators ⟨.Strict, []⟩
        [⟨"http.status_code", some (.ofInt 200)⟩, ⟨"error", some (.ofBool true)⟩]).2 = none ∧
      Call.CreateFilterSet 0 [""] ⟨.Strict, []⟩
        ∉ NewAttributesMatcher.calls sampleCollaborators ⟨.Strict, []⟩
            [⟨"http.status_code", some (.ofInt 200)⟩, ⟨"error", some (.ofBool true)⟩] :=
  ⟨by decide, by decide,
    fun hmem =>
      (C13_non_regexp_compiles_exact_values sampleCollaborators ⟨.Strict, []⟩
        [⟨"http.status_code", some (.ofInt 200)⟩, ⟨"error", some (.ofBool true)⟩]
        (by decide)).2.2.1 _ hmem 0 [""] ⟨.Strict, []⟩ rfl⟩

/-- C16: duplicate keys are accepted by compilation, which succeeds on a list
exactly when each spec compiles alone, whatever keys the specs share. A matcher
that holds two exact-value criteria on one key with configured values that are
not equal returns false on every attribute map, and with equal values the two
criteria behave as the single one. -/
theorem C16_duplicate_keys {Raw : Type} (ext : Collaborators Raw)
    (config : filterset.Config) (FormatFloat : Float64 → String) :
    (∀ attributes : List (filterconfig.Attribute Raw),
        (NewAttributesMatcher ext config attributes).2 = none ↔
          ∀ spec ∈ attributes, (NewAttributesMatcher ext config [spec]).2 = none) ∧
      (∀ (ma : AttributesMatcher) (k : String) (v1 v2 : pdata.AttributeValue)
          (attrs : pdata.AttributeMap),
        (⟨k, some v1, none⟩ : AttributeMatcher) ∈ ma →
        (⟨k, some v2, none⟩ : AttributeMatcher) ∈ ma → v1 ≠ v2 →
          AttributesMatcher.Match FormatFloat ma attrs = false) ∧
      (∀ (k : String) (v : pdata.AttributeValue) (rest : AttributesMatcher)
          (attrs : pdata.AttributeMap),
        AttributesMatcher.Match FormatFloat (⟨k, some v, none⟩ :: ⟨k, some v, none⟩ :: rest)
            attrs
          = AttributesMatcher.Match FormatFloat (⟨k, some v, none⟩ :: rest) attrs) := by
  refine ⟨?_, ?_, ?_⟩
  · intro attributes
    exact NewAttributesMatcher_loop_ok_iff ext config attributes 0 [] []
  · intro ma k v1 v2 attrs h1 h2 hne
    rw [← Bool.not_eq_true, Match_eq_all, List.all_eq_true]
    intro hall
    have c1 := hall _ h1
    have c2 := hall _ h2
    simp only [AttributeMatcher.check] at c1 c2
    cases hget : attrs.Get k with
    | none => simp [hget] at c1
    | some attr =>
      simp only [hget, AttributeValue.Equal_iff] at c1 c2
      exact hne (c1.symm.trans c2)
  · intro k v rest attrs
    rw [Match_eq_all, Match_eq_all]
    simp only [List.all_cons]
    rw [← Bool.and_assoc, Bool.and_self]

/-- Witness of C16: under Strict, two specs on the key `http.status_code` with
the values `Int(200)` and `Int(404)`. -/
theorem C16_duplicate_keys_witness :
    (NewAttributesMatcher sampleCollaborators ⟨.Strict, []⟩
        [⟨"http.status_code", some (.ofInt 200)⟩, ⟨"http.status_code", some (.ofInt 404)⟩]).2
        = none ∧
      AttributeValue.ofInt 200 ≠ AttributeValue.ofInt 404 ∧
      AttributesMatcher.Match sampleFormatFloat
        [⟨"http.status_code", some (.ofInt 200), none⟩,
          ⟨"http.status_code", some (.ofInt 404), none⟩]
        ⟨[("http.status_code", .ofInt 200)]⟩ = false :=
  ⟨((C16_duplicate_keys sampleCollaborators ⟨.Strict, []⟩ sampleFormatFloat).1 _).2
      (by
        intro spec hmem
        simp only [List.mem_cons, List.mem_singleton, List.not_mem_nil, or_false] at hmem
        rcases hmem with h | h <;> rw [h] <;> decide),
    by simp,
    (C16_duplicate_keys sampleCollaborators ⟨.Strict, []⟩ sampleFormatFloat).2.1 _
      "http.status_code" (.ofInt 200) (.ofInt 404) _ (by simp) (by simp) (by simp)⟩

/-- When every spec in front of a spec compiles alone and that spec fails alone
with `err`, the run returns the nil matcher with `err`, and every collaborator
invocation was made at that spec or before it. -/
theorem NewAttributesMatcher_run_first_failure {Raw : Type} (ext : Collaborators Raw)
    (config : filterset.Config) (front : List (filterconfig.Attribute Raw))
    (spec : filterconfig.Attribute Raw) (back : List (filterconfig.Attribute Raw))
    (err : Error)
    (hfront : ∀ earlier ∈ front, (NewAttributesMatcher ext config [earlier]).2 = none)
    (hspec : (NewAttributesMatcher ext config [spec]).2 = some err) :
    ∃ trace, NewAttributesMatcher.run ext config (front ++ spec :: back)
        = (([], some err), trace) ∧ ∀ c ∈ trace, c.index ≤ front.length := by
  obtain ⟨entries, made, heq, hmade⟩ :=
    NewAttributesMatcher_loop_append ext config (spec :: back) front 0 [] [] hfront
  rw [NewAttributesMatcher_singleton ext config (0 + front.length)] at hspec
  have hidx := NewAttributesMatcher_body_calls_index ext config (0 + front.length) spec
  unfold NewAttributesMatcher.run
  rw [heq, NewAttributesMatcher_loop_cons]
  rcases hb : NewAttributesMatcher.body ext config (0 + front.length) spec with ⟨res, made2⟩
  rw [hb] at hspec hidx
  cases res with
  | ok entry => simp at hspec
  | error e =>
    simp only [Option.some.injEq] at hspec
    subst hspec
    refine ⟨[] ++ made ++ made2, rfl, ?_⟩
    intro c hc
    rcases List.mem_append.1 hc with h1 | h1
    · rcases List.mem_append.1 h1 with h2 | h2
      · simp at h2
      · have := hmade c h2
        omega
    · have := hidx c h1
      omega

/-- C18: `NewAttributesMatcher` processes the specs in input order and stops at
the first failing spec: when every spec in front of a spec compiles alone and
that spec fails alone, the error returned is the error of that spec, and no
collaborator is invoked for a later spec. Within one spec the checks are made
in the order empty key (no collaborator is invoked), value normalization (its
error is returned unchanged, the pattern compiler is not invoked), the
String-only check under Regexp (the pattern compiler is not invoked), pattern
compilation (its error is returned unchanged). A spec with an empty key and a
value the normalizer rejects yields the empty-key error, and under Regexp the
list `[("a", Int(1)), ("", absent)]` yields the unsupported-type error for
`a`, which is not the empty-key error. -/
theorem C18_first_failing_spec_decides {Raw : Type} (ext : Collaborators Raw)
    (config : filterset.Config) :
    (∀ (front : List (filterconfig.Attribute Raw)) (spec : filterconfig.Attribute Raw)
        (back : List (filterconfig.Attribute Raw)) (err : Error),
        (∀ earlier ∈ front, (NewAttributesMatcher ext config [earlier]).2 = none) →
        (NewAttributesMatcher ext config [spec]).2 = some err →
          NewAttributesMatcher ext config (front ++ spec :: back) = ([], some err) ∧
            ∀ c ∈ NewAttributesMatcher.calls ext config (front ++ spec :: back),
              c.index ≤ front.length) ∧
      (∀ spec : filterconfig.Attribute Raw, spec.Key = "" →
        NewAttributesMatcher ext config [spec]
            = ([], some (Error.New "can't have empty key in the list of attributes")) ∧
          NewAttributesMatcher.calls ext config [spec] = []) ∧
      (∀ (spec : filterconfig.Attribute Raw) (raw : Raw) (err : Error),
        spec.Key ≠ "" → spec.Value = some raw → ext.NewAttributeValueRaw raw = .error err →
          NewAttributesMatcher ext config [spec] = ([], some err) ∧
            NewAttributesMatcher.calls ext config [spec]
              = [Call.NewAttributeValueRaw 0 raw]) ∧
      (∀ (spec : filterconfig.Attribute Raw) (raw : Raw) (val : pdata.AttributeValue),
        spec.Key ≠ "" → spec.Value = some raw → ext.NewAttributeValueRaw raw = .ok val →
        config.MatchType = filterset.MatchType.Regexp →
        val.Type ≠ AttributeValueType.AttributeValueTypeString →
          NewAttributesMatcher ext config [spec]
              = ([], some (Error.Errorf "%s=%s for %q only supports STRING, but found %s"
                  spec.Key val.Type.String)) ∧
            NewAttributesMatcher.calls ext config [spec]
              = [Call.NewAttributeValueRaw 0 raw]) ∧
      (∀ (spec : filterconfig.Attribute Raw) (raw : Raw) (val : pdata.AttributeValue)
          (err : Error),
        spec.Key ≠ "" → spec.Value = some raw → ext.NewAttributeValueRaw raw = .ok val →
        config.MatchType = filterset.MatchType.Regexp →
        val.Type = AttributeValueType.AttributeValueTypeString →
        ext.CreateFilterSet [val.StringVal] config = .error err →
          NewAttributesMatcher ext config [spec] = ([], some err) ∧
            NewAttributesMatcher.calls ext config [spec]
              = [Call.NewAttributeValueRaw 0 raw,
                  Call.CreateFilterSet 0 [val.StringVal] config]) ∧
      (∀ (raw : Raw) (err : Error), ext.NewAttributeValueRaw raw = .error err →
        NewAttributesMatcher ext config [⟨"", some raw⟩]
          = ([], some (Error.New "can't have empty key in the list of attributes"))) ∧
      (∀ raw : Raw, config.MatchType = filterset.MatchType.Regexp →
        ext.NewAttributeValueRaw raw = .ok (.ofInt 1) →
          NewAttributesMatcher ext config [⟨"a", some raw⟩, ⟨"", none⟩]
              = ([], some (Error.Errorf "%s=%s for %q only supports STRING, but found %s"
                  "a" "INT")) ∧
            Error.Errorf "%s=%s for %q only supports STRING, but found %s" "a" "INT"
              ≠ Error.New "can't have empty key in the list of attributes") := by
  refine ⟨?_, ?_, ?_, ?_, ?_, ?_, ?_⟩
  · intro front spec back err hfront hspec
    obtain ⟨trace, hrun, htrace⟩ :=
      NewAttributesMatcher_run_first_failure ext config front spec back err hfront hspec
    unfold NewAttributesMatcher NewAttributesMatcher.calls
    rw [hrun]
    exact ⟨rfl, htrace⟩
  · intro spec hkey
    simp [NewAttributesMatcher, NewAttributesMatcher.calls, NewAttributesMatcher.run,
      NewAttributesMatcher.loop, hkey]
  · intro spec raw err hkey hv hn
    simp [NewAttributesMatcher, NewAttributesMatcher.calls, NewAttributesMatcher.run,
      NewAttributesMatcher.loop, hkey, hv, hn]
  · intro spec raw val hkey hv hn hre hty
    simp [NewAttributesMatcher, NewAttributesMatcher.calls, NewAttributesMatcher.run,
      NewAttributesMatcher.loop, hkey, hv, hn, hre, hty]
  · intro spec raw val err hkey hv hn hre hty hc
    simp [NewAttributesMatcher, NewAttributesMatcher.calls, NewAttributesMatcher.run,
      NewAttributesMatcher.loop, hkey, hv, hn, hre, hty, hc]
  · intro raw err _
    simp [NewAttributesMatcher, NewAttributesMatcher.run, NewAttributesMatcher.loop]
  · intro raw hre hn
    refine ⟨?_, by simp⟩
    simp [NewAttributesMatcher, NewAttributesMatcher.run, NewAttributesMatcher.loop, hn, hre,
      AttributeValue.Type, AttributeValueType.String]

/-- Witness of C18: under Regexp, a spec that compiles, then the spec
`a = Int(1)`, then a spec with an empty key. -/
theorem C18_first_failing_spec_decides_witness :
    (NewAttributesMatcher sampleCollaborators ⟨.Regexp, []⟩
        [⟨"http.method", some (.ofString "GET")⟩]).2 = none ∧
      (NewAttributesMatcher sampleCollaborators ⟨.Regexp, []⟩ [⟨"a", some (.ofInt 1)⟩]).2
        = some (Error.Errorf "%s=%s for %q only supports STRING, but found %s" "a" "INT") ∧
      NewAttributesMatcher sampleCollaborators ⟨.Regexp, []⟩
          [⟨"http.method", some (.ofString "GET")⟩, ⟨"a", some (.ofInt 1)⟩, ⟨"", none⟩]
        = ([], some (Error.Errorf "%s=%s for %q only supports STRING, but found %s"
            "a" "INT")) :=
  ⟨by decide, by decide,
    ((C18_first_failing_spec_decides sampleCollaborators ⟨.Regexp, []⟩).1
      [⟨"http.method", some (.ofString "GET")⟩] ⟨"a", some (.ofInt 1)⟩ [⟨"", none⟩]
      (Error.Errorf "%s=%s for %q only supports STRING, but found %s" "a" "INT")
      (by
        intro earlier hmem
        rw [List.mem_singleton] at hmem
        rw [hmem]
        decide)
      (by decide)).1⟩

end filtermatcher
